import Mathlib

/-!
# Receive-side TCP state machine (`tcp_in.c`)

A shallow embedding of `src/tcp_in.c`.  Sequence numbers, windows, flags and
lengths are natural numbers; the 32-bit and 16-bit arithmetic of the C code is
written out with explicit `%`.  A socket is a record, the intrusive lists
(`send_buf`, `rcv_ofo_buf`) are Lean lists in list order, and everything the
code hands to a collaborator (transmit, wait queues) is appended to a trace of
`Event`s in call order.
-/

namespace TcpIn

/-! ## Constants and sequence arithmetic -/

/-- Modelled from the spec: flag bit of the `flags` bitmask (`tcp.h` is not among the sources). -/
def TCP_FIN : Nat := 0x01

/-- Modelled from the spec: flag bit of the `flags` bitmask (`tcp.h` is not among the sources). -/
def TCP_SYN : Nat := 0x02

/-- Modelled from the spec: flag bit of the `flags` bitmask (`tcp.h` is not among the sources). -/
def TCP_RST : Nat := 0x04

/-- Modelled from the spec: flag bit of the `flags` bitmask (`tcp.h` is not among the sources). -/
def TCP_ACK : Nat := 0x10

/-- Two to the 32: the modulus of `u32` arithmetic. -/
def U32 : Nat := 4294967296

/-- Two to the 16: the modulus of `u16` arithmetic. -/
def U16 : Nat := 65536

/-- The `u32` difference `a - b`. -/
def sub32 (a b : Nat) : Nat := (a % U32 + U32 - b % U32) % U32

/-- The `u16` difference `a - b`, as computed by `x -= len` on a 16-bit window field. -/
def sub16 (a b : Nat) : Nat := (a % U16 + U16 - b % U16) % U16

/-- The cast `(int32)x` of a `u32` value. -/
def toInt32 (x : Nat) : Int :=
  if x % U32 < 2147483648 then ((x % U32 : Nat) : Int) else ((x % U32 : Nat) : Int) - 4294967296

/-- Modelled from the spec: `less_than_32b` of `tcp.h` (not among the sources),
"`a < b` iff `(int32)(a - b) < 0`". -/
def less_than_32b (a b : Nat) : Bool := decide (toInt32 (sub32 a b) < 0)

/-- Modelled from the spec: `less_or_equal_32b` of `tcp.h` (not among the sources),
"`a ≤ b` analogous": `(int32)(a - b) ≤ 0`. -/
def less_or_equal_32b (a b : Nat) : Bool := decide (toInt32 (sub32 a b) ≤ 0)

/-! ## Data model -/

/-- The states of a connection endpoint. -/
inductive tcp_state where
  | TCP_CLOSED
  | TCP_LISTEN
  | TCP_SYN_RECV
  | TCP_SYN_SENT
  | TCP_ESTABLISHED
  | TCP_CLOSE_WAIT
  | TCP_LAST_ACK
  | TCP_FIN_WAIT_1
  | TCP_FIN_WAIT_2
  | TCP_TIME_WAIT
  deriving DecidableEq, Repr

open tcp_state

/-- The parsed incoming segment (`struct tcp_cb`). -/
structure tcp_cb where
  saddr : Nat := 0
  daddr : Nat := 0
  sport : Nat := 0
  dport : Nat := 0
  seq : Nat
  seq_end : Nat
  ack : Nat
  rwnd : Nat
  flags : Nat
  payload : List Nat := []
  pl_len : Nat := 0
  deriving DecidableEq, Repr

/-- An entry of the retransmission queue `send_buf` (`struct tcp_packet_cache`). -/
structure tcp_packet_cache where
  seq : Nat
  seq_end : Nat
  packet : List Nat := []
  deriving DecidableEq, Repr

/-- An entry of the out-of-order buffer `rcv_ofo_buf` (`struct tcp_payload_cache`). -/
structure tcp_payload_cache where
  seq : Nat
  seq_end : Nat
  payload : List Nat
  len : Nat
  deriving DecidableEq, Repr

/-- Modelled from the spec: the byte ring of `ring_buffer.h` (not among the sources):
the bytes written so far and not yet read, and the free capacity left. -/
structure ring_buffer where
  data : List Nat := []
  free : Nat
  deriving DecidableEq, Repr

/-- Modelled from the spec: `ring_buffer_free` of `ring_buffer.h`, "`free(buf)` returns free
capacity". -/
def ring_buffer_free (rb : ring_buffer) : Nat := rb.free

/-- Modelled from the spec: `write_ring_buffer` of `ring_buffer.h`, "`write(buf, bytes, len)`
appends": the first `len` bytes are appended and the free capacity shrinks by `len`. -/
def write_ring_buffer (rb : ring_buffer) (bytes : List Nat) (len : Nat) : ring_buffer :=
  { data := rb.data ++ bytes.take len, free := rb.free - len }

/-- A timer record (`retrans_timer`): the two fields `tcp_ack_data` writes. -/
structure tcp_timer where
  enable : Nat := 0
  timeout : Nat := 0
  deriving DecidableEq, Repr

/-- The queue of the parent that a socket's `list` node is linked into. -/
inductive queue_link where
  | unlinked
  | listen_queue
  | accept_queue
  deriving DecidableEq, Repr

/-- The named wait points of a socket. -/
inductive wait_point where
  | wait_connect
  | wait_accept
  | wait_send
  | wait_recv
  deriving DecidableEq, Repr

/-- A call into a collaborator, recorded in call order. -/
inductive Event where
  /-- The call `tcp_send_control_packet(tsk, flags)`, with the `snd_nxt`, `rcv_nxt` and
  `rcv_wnd` of the socket at the time of the call. -/
  | send_control (flags seq ack rwnd : Nat)
  /-- The call `tcp_send_reset(cb)`. -/
  | send_reset (cb : tcp_cb)
  /-- The call `wake_up` on a wait point of the socket itself. -/
  | wake_up (w : wait_point)
  /-- The call `wake_up` on a wait point of the socket's parent. -/
  | wake_up_parent (w : wait_point)
  deriving DecidableEq, Repr

/-- The connection endpoint (`struct tcp_sock`), restricted to the fields `tcp_in.c` touches.
Membership in the established hash table and in the parent's queues is recorded on the
socket itself (`hashed`, `list`). -/
structure tcp_sock where
  state : tcp_state
  sk_sip : Nat := 0
  sk_dip : Nat := 0
  sk_sport : Nat := 0
  sk_dport : Nat := 0
  snd_una : Nat
  snd_nxt : Nat
  snd_wnd : Nat
  rcv_nxt : Nat
  rcv_wnd : Nat
  send_buf : List tcp_packet_cache := []
  rcv_ofo_buf : List tcp_payload_cache := []
  rcv_buf : ring_buffer
  retrans_timer : tcp_timer := {}
  RTO : Nat := 0
  timewait_enable : Bool := false
  hashed : Bool := true
  has_parent : Bool := false
  list : queue_link := queue_link.unlinked
  deriving DecidableEq, Repr

/-- What the collaborators that return a value give back during one call of `tcp_process`:
the socket `alloc_tcp_sock()` returns and whether `tcp_hash` reports a failure. -/
structure Env where
  alloc_tcp_sock : tcp_sock
  tcp_hash_fails : Bool := false

/-- The result of one call of `tcp_process`: the socket after the call, the child the LISTEN
handler created (if any), and the trace of collaborator calls. -/
structure Outcome where
  tsk : tcp_sock
  child : Option tcp_sock := none
  events : List Event := []

/-! ## Collaborators -/

/-- Modelled from the spec: `tcp_send_control_packet` (`tcp_out.c` is not among the sources),
"emits a header-only segment with current `snd_nxt`, `rcv_nxt`, `rcv_wnd`". -/
def tcp_send_control_packet (tsk : tcp_sock) (flags : Nat) : Event :=
  Event.send_control flags tsk.snd_nxt tsk.rcv_nxt tsk.rcv_wnd

/-- Modelled from the spec: `tcp_set_state` (not among the sources) stores the new state. -/
def tcp_set_state (tsk : tcp_sock) (s : tcp_state) : tcp_sock := { tsk with state := s }

/-- Modelled from the spec: `tcp_unhash` (not among the sources) removes the socket from the
established table. -/
def tcp_unhash (tsk : tcp_sock) : tcp_sock := { tsk with hashed := false }

/-- Modelled from the spec: `tcp_unset_retrans_timer` (`tcp_timer.c` is not among the sources),
"`cancel_retransmit(conn)`". -/
def tcp_unset_retrans_timer (tsk : tcp_sock) : tcp_sock :=
  { tsk with retrans_timer := { tsk.retrans_timer with enable := 0 } }

/-- Modelled from the spec: `tcp_set_timewait_timer` (`tcp_timer.c` is not among the sources),
"`arm_timewait(conn)`". -/
def tcp_set_timewait_timer (tsk : tcp_sock) : tcp_sock := { tsk with timewait_enable := true }

/-- Modelled from the spec: `tcp_sock_accept_enqueue` (`tcp_sock.c` is not among the sources)
links the socket onto its parent's accept queue. -/
def tcp_sock_accept_enqueue (tsk : tcp_sock) : tcp_sock :=
  { tsk with list := queue_link.accept_queue }

/-- The list primitive `list_delete_entry(&tsk->list)`: the socket leaves the queue it is on. -/
def list_delete_entry (tsk : tcp_sock) : tcp_sock := { tsk with list := queue_link.unlinked }

/-! ## The handlers of `tcp_in.c` -/

/-- The function `tcp_state_listen` (lines 17-45): the child it creates and the trace. -/
def tcp_state_listen (env : Env) (_tsk : tcp_sock) (cb : tcp_cb) : tcp_sock × List Event :=
  let c_tsk := env.alloc_tcp_sock
  let c_tsk := { c_tsk with sk_sip := cb.daddr, sk_dip := cb.saddr,
                            sk_sport := cb.dport, sk_dport := cb.sport }
  let c_tsk := { c_tsk with rcv_nxt := cb.seq_end }
  let c_tsk := { c_tsk with has_parent := true, snd_wnd := cb.rwnd }
  let c_tsk := { c_tsk with list := queue_link.listen_queue }
  let ev := tcp_send_control_packet c_tsk (TCP_SYN ||| TCP_ACK)
  let c_tsk := tcp_set_state c_tsk TCP_SYN_RECV
  let c_tsk := { c_tsk with hashed := !env.tcp_hash_fails }
  (c_tsk, [ev])

/-- The function `tcp_state_syn_sent` (lines 58-72). -/
def tcp_state_syn_sent (tsk : tcp_sock) (cb : tcp_cb) : tcp_sock × List Event :=
  if cb.flags &&& (TCP_SYN ||| TCP_ACK) = 0 ∨ cb.ack ≠ tsk.snd_nxt then
    (tsk, [Event.send_reset cb])
  else
    let tsk := { tsk with rcv_nxt := cb.seq_end }
    let tsk := { tsk with snd_wnd := cb.rwnd }
    let tsk := { tsk with snd_una := cb.ack }
    let ev := tcp_send_control_packet tsk TCP_ACK
    let tsk := tcp_set_state tsk TCP_ESTABLISHED
    (tsk, [ev, Event.wake_up wait_point.wait_connect])

/-- The function `tcp_update_window` (lines 77-84); `old_snd_wnd` is a `u16`. -/
def tcp_update_window (tsk : tcp_sock) (cb : tcp_cb) : tcp_sock × List Event :=
  let old_snd_wnd := tsk.snd_wnd % U16
  let tsk := { tsk with snd_wnd := min cb.rwnd 4000 }
  if old_snd_wnd = 0 then (tsk, [Event.wake_up wait_point.wait_send]) else (tsk, [])

/-- The function `tcp_update_window_safe` (lines 87-91). -/
def tcp_update_window_safe (tsk : tcp_sock) (cb : tcp_cb) : tcp_sock × List Event :=
  if less_or_equal_32b tsk.snd_una cb.ack = true ∧ less_or_equal_32b cb.ack tsk.snd_nxt = true then
    tcp_update_window tsk cb
  else (tsk, [])

/-- The function `tcp_state_syn_recv` (lines 99-111). -/
def tcp_state_syn_recv (tsk : tcp_sock) (cb : tcp_cb) : tcp_sock × List Event :=
  let tsk := list_delete_entry tsk
  let tsk := tcp_sock_accept_enqueue tsk
  let tsk := { tsk with rcv_nxt := cb.seq_end }
  let tsk := { tsk with snd_wnd := cb.rwnd }
  let tsk := tcp_set_state tsk TCP_ESTABLISHED
  (tsk, [Event.wake_up_parent wait_point.wait_accept])

/-- The function `is_tcp_seq_valid` (lines 119-129); `rcv_end` is a `u32`. -/
def is_tcp_seq_valid (tsk : tcp_sock) (cb : tcp_cb) : Bool :=
  let rcv_end := (tsk.rcv_nxt + max tsk.rcv_wnd 1) % U32
  less_than_32b cb.seq rcv_end && less_or_equal_32b tsk.rcv_nxt cb.seq_end

/-- The function `tcp_recv_data` (lines 133-140). -/
def tcp_recv_data (tsk : tcp_sock) (cb : tcp_cb) : tcp_sock × List Event :=
  let tsk := { tsk with rcv_buf := write_ring_buffer tsk.rcv_buf cb.payload cb.pl_len }
  let tsk := { tsk with rcv_wnd := sub16 tsk.rcv_wnd cb.pl_len }
  (tsk, [Event.wake_up wait_point.wait_recv])

/-- The loop of `tcp_ack_data` (lines 148-164) over the entries of `send_buf` still to visit:
returns the entries left in the queue, `snd_una` and `new_acked`.  The comparisons are the
plain `u32` comparisons of the C code. -/
def tcp_ack_data_loop (ack : Nat) : List tcp_packet_cache → Nat → Bool →
    List tcp_packet_cache × Nat × Bool
  | [], snd_una, new_acked => ([], snd_una, new_acked)
  | item :: rest, snd_una, new_acked =>
    if item.seq_end ≤ ack then
      if item.seq_end > snd_una then tcp_ack_data_loop ack rest item.seq_end true
      else tcp_ack_data_loop ack rest snd_una new_acked
    else
      let r := tcp_ack_data_loop ack rest snd_una new_acked
      (item :: r.1, r.2.1, r.2.2)

/-- The function `tcp_ack_data` (lines 141-179). -/
def tcp_ack_data (tsk : tcp_sock) (cb : tcp_cb) : tcp_sock × List Event :=
  let ack := cb.ack
  if ack ≤ tsk.snd_nxt ∧ ack ≥ tsk.snd_una then
    let r := tcp_ack_data_loop ack tsk.send_buf tsk.snd_una false
    let tsk := { tsk with send_buf := r.1, snd_una := r.2.1 }
    let evs := if r.2.2 = true then [Event.wake_up wait_point.wait_send] else []
    if tsk.send_buf ≠ [] then
      ({ tsk with retrans_timer := { timeout := tsk.RTO, enable := 1 } }, evs)
    else
      (tcp_unset_retrans_timer tsk, evs)
  else (tsk, [])

/-- The scan of `rcv_ofo_buf` for the place of `new_item` (lines 355-392), over the entries
still to visit: the buffer from the current entry on, after the scan.  Reaching the end of the
list means `insert_pos` stayed `NULL` and `new_item` is freed. -/
def ofo_insert_scan (new_item : tcp_payload_cache) :
    List tcp_payload_cache → List tcp_payload_cache
  | [] => []
  | item :: rest =>
    if item.seq = new_item.seq ∧ item.seq_end = new_item.seq_end then
      item :: rest
    else if new_item.seq_end ≤ item.seq then
      new_item :: item :: rest
    else if item.seq_end ≤ new_item.seq then
      if rest = [] then [item, new_item]
      else item :: ofo_insert_scan new_item rest
    else
      item :: ofo_insert_scan new_item rest

/-- The insertion of `new_item` into `rcv_ofo_buf` (lines 353-398). -/
def ofo_insert (new_item : tcp_payload_cache) (buf : List tcp_payload_cache) :
    List tcp_payload_cache :=
  if buf ≠ [] then ofo_insert_scan new_item buf else [new_item]

/-- The promotion loop (lines 403-419) over the entries of `rcv_ofo_buf` still to visit;
`seq_end` of the C code always equals `tsk->rcv_nxt` and is read from there.  Returns the
socket and `new_data_recv`. -/
def ofo_promote_loop : List tcp_payload_cache → tcp_sock → Bool → tcp_sock × Bool
  | [], tsk, new_data_recv => ({ tsk with rcv_ofo_buf := [] }, new_data_recv)
  | item :: rest, tsk, new_data_recv =>
    if tsk.rcv_nxt = item.seq ∧ ring_buffer_free tsk.rcv_buf > item.len then
      let tsk := { tsk with rcv_nxt := item.seq_end }
      let tsk := { tsk with rcv_buf := write_ring_buffer tsk.rcv_buf item.payload item.len }
      let tsk := { tsk with rcv_wnd := sub16 tsk.rcv_wnd item.len }
      ofo_promote_loop rest tsk true
    else
      ({ tsk with rcv_ofo_buf := item :: rest }, new_data_recv)

/-- The payload branch of `tcp_process` (lines 335-440). -/
def tcp_process_payload (tsk : tcp_sock) (cb : tcp_cb) : tcp_sock × List Event :=
  let new_item : tcp_payload_cache :=
    { seq := cb.seq, seq_end := cb.seq_end, payload := cb.payload.take cb.pl_len,
      len := cb.pl_len }
  let tsk := { tsk with rcv_ofo_buf := ofo_insert new_item tsk.rcv_ofo_buf }
  let r := ofo_promote_loop tsk.rcv_ofo_buf tsk false
  let tsk := r.1
  let ev1 := if r.2 = true then [Event.wake_up wait_point.wait_recv] else []
  let w := tcp_update_window_safe tsk cb
  let tsk := w.1
  (tsk, ev1 ++ w.2 ++ [tcp_send_control_packet tsk TCP_ACK])

/-- The generic data/ACK path of `tcp_process` (lines 313-441). -/
def tcp_process_data (tsk : tcp_sock) (cb : tcp_cb) : tcp_sock × List Event :=
  if is_tcp_seq_valid tsk cb = false then
    (tsk, [tcp_send_control_packet tsk TCP_ACK])
  else
    let a := tcp_ack_data tsk cb
    let tsk := a.1
    let ev1 := if cb.ack < tsk.snd_una then [tcp_send_control_packet tsk TCP_ACK] else []
    if cb.ack > tsk.snd_nxt then
      (tsk, a.2 ++ ev1)
    else if cb.pl_len > 0 then
      let p := tcp_process_payload tsk cb
      (p.1, a.2 ++ ev1 ++ p.2)
    else
      (tsk, a.2 ++ ev1)

/-- The function `tcp_process` (lines 199-442). -/
def tcp_process (env : Env) (tsk : tcp_sock) (cb : tcp_cb) : Outcome :=
  if tsk.state = TCP_CLOSED then
    { tsk := tsk }
  else if tsk.state = TCP_LISTEN ∧ cb.flags &&& TCP_SYN ≠ 0 then
    let r := tcp_state_listen env tsk cb
    { tsk := tsk, child := some r.1, events := r.2 }
  else if tsk.state = TCP_SYN_SENT ∧ cb.flags &&& (TCP_SYN ||| TCP_ACK) ≠ 0 then
    let r := tcp_state_syn_sent tsk cb
    let a := tcp_ack_data r.1 cb
    { tsk := a.1, events := r.2 ++ a.2 }
  else if tsk.state = TCP_SYN_RECV ∧ cb.flags &&& TCP_ACK ≠ 0 then
    let r := tcp_state_syn_recv tsk cb
    let a := tcp_ack_data r.1 cb
    { tsk := a.1, events := r.2 ++ a.2 }
  else if cb.flags &&& TCP_RST ≠ 0 then
    { tsk := tcp_unhash (tcp_set_state tsk TCP_CLOSED) }
  else if cb.flags &&& TCP_SYN ≠ 0 then
    { tsk := tcp_unhash (tcp_set_state tsk TCP_CLOSED), events := [Event.send_reset cb] }
  else if cb.flags &&& TCP_ACK = 0 then
    { tsk := tsk }
  else if cb.flags &&& TCP_FIN ≠ 0 ∧ tsk.state = TCP_ESTABLISHED ∧ cb.seq = tsk.rcv_nxt then
    let a := tcp_ack_data tsk cb
    let tsk := { a.1 with rcv_nxt := cb.seq_end }
    let ev := tcp_send_control_packet tsk TCP_ACK
    let tsk := tcp_set_state tsk TCP_CLOSE_WAIT
    { tsk := tsk, events := a.2 ++ [ev, Event.wake_up wait_point.wait_recv] }
  else if tsk.state = TCP_FIN_WAIT_1 ∧ cb.flags &&& TCP_ACK ≠ 0 ∧ cb.ack = tsk.snd_nxt then
    let a := tcp_ack_data tsk cb
    { tsk := tcp_set_state a.1 TCP_FIN_WAIT_2, events := a.2 }
  else if tsk.state = TCP_FIN_WAIT_2 ∧ cb.flags &&& TCP_FIN ≠ 0 ∧ cb.seq = tsk.rcv_nxt then
    let a := tcp_ack_data tsk cb
    let tsk := { a.1 with rcv_nxt := cb.seq_end }
    let ev := tcp_send_control_packet tsk TCP_ACK
    let tsk := tcp_set_timewait_timer tsk
    let tsk := tcp_set_state tsk TCP_TIME_WAIT
    { tsk := tsk, events := a.2 ++ [ev] }
  else if tsk.state = TCP_LAST_ACK ∧ cb.flags &&& TCP_ACK ≠ 0 ∧ cb.ack = tsk.snd_nxt then
    let a := tcp_ack_data tsk cb
    { tsk := tcp_unhash (tcp_set_state a.1 TCP_CLOSED), events := a.2 }
  else
    let r := tcp_process_data tsk cb
    { tsk := r.1, events := r.2 }


/-! ## Predicates and scenario inputs -/

/-- Entries are strictly ascending by `seq` and pairwise disjoint: every entry ends at or
before the start of every later entry. -/
def ofo_sorted_disjoint (buf : List tcp_payload_cache) : Prop :=
  buf.Pairwise (fun a b => a.seq < b.seq ∧ a.seq_end ≤ b.seq)

instance (buf : List tcp_payload_cache) : Decidable (ofo_sorted_disjoint buf) := by
  unfold ofo_sorted_disjoint
  infer_instance

/-- A byte ring with 4000 free bytes and nothing stored. -/
def ring4000 : ring_buffer := { free := 4000 }

/-- A freshly allocated socket, as `alloc_tcp_sock()` returns it. -/
def fresh_sock : tcp_sock :=
  { state := TCP_CLOSED, snd_una := 1000, snd_nxt := 1000, snd_wnd := 0, rcv_nxt := 0,
    rcv_wnd := 4000, rcv_buf := ring4000, hashed := false }

/-- The collaborators of the scenarios: allocation gives `fresh_sock`, hashing succeeds. -/
def scen_env : Env := { alloc_tcp_sock := fresh_sock }

/-- The connection of the cumulative-ACK scenario: three queued segments
1000..1100, 1100..1250, 1250..1300 with `snd_una = 1000`, `snd_nxt = 1300`. -/
def ack_sock : tcp_sock :=
  { state := TCP_ESTABLISHED, snd_una := 1000, snd_nxt := 1300, snd_wnd := 4000,
    rcv_nxt := 2000, rcv_wnd := 4000, rcv_buf := ring4000, RTO := 200,
    send_buf := [{ seq := 1000, seq_end := 1100 }, { seq := 1100, seq_end := 1250 },
                 { seq := 1250, seq_end := 1300 }],
    retrans_timer := { enable := 1, timeout := 200 } }

/-- The segment of the cumulative-ACK scenario: only ACK set, `ack = 1250`. -/
def ack_seg : tcp_cb := { seq := 2000, seq_end := 2000, ack := 1250, rwnd := 4000, flags := TCP_ACK }

/-- A connection whose send space straddles the wrap: `snd_una = 0xFFFFFF00`,
`snd_nxt = 0x00000100`, one queued segment 0xFFFFFF00..0x00000010. -/
def wrap_sock : tcp_sock :=
  { state := TCP_ESTABLISHED, snd_una := 0xFFFFFF00, snd_nxt := 0x00000100, snd_wnd := 4000,
    rcv_nxt := 2000, rcv_wnd := 4000, rcv_buf := ring4000, RTO := 200,
    send_buf := [{ seq := 0xFFFFFF00, seq_end := 0x00000010 }],
    retrans_timer := { enable := 1, timeout := 200 } }

/-- The segment with only ACK set and `ack = 0x10`, acknowledging the queued segment of `wrap_sock`. -/
def wrap_seg : tcp_cb := { seq := 2000, seq_end := 2000, ack := 0x00000010, rwnd := 4000, flags := TCP_ACK }

/-- An ESTABLISHED connection with `rcv_nxt = 2000`, `rcv_wnd = 4000`, nothing queued. -/
def est_sock : tcp_sock :=
  { state := TCP_ESTABLISHED, snd_una := 500, snd_nxt := 500, snd_wnd := 4000,
    rcv_nxt := 2000, rcv_wnd := 4000, rcv_buf := ring4000, RTO := 200 }

/-- The connection `est_sock` holding two out-of-order fragments 2100..2200 and 2300..2400. -/
def ofo_sock : tcp_sock :=
  { est_sock with rcv_ofo_buf := [{ seq := 2100, seq_end := 2200, payload := List.replicate 100 1, len := 100 },
                                  { seq := 2300, seq_end := 2400, payload := List.replicate 100 2, len := 100 }] }

/-- A payload segment 2150..2250 that overlaps the first fragment of `ofo_sock`. -/
def overlap_seg : tcp_cb :=
  { seq := 2150, seq_end := 2250, ack := 500, rwnd := 4000, flags := TCP_ACK,
    payload := List.replicate 100 3, pl_len := 100 }

/-- A payload segment 1900..2100 that starts before `rcv_nxt = 2000` and ends after it. -/
def stale_seg : tcp_cb :=
  { seq := 1900, seq_end := 2100, ack := 500, rwnd := 4000, flags := TCP_ACK,
    payload := List.replicate 200 4, pl_len := 200 }



/-- Whether an event is a call of `tcp_send_control_packet`. -/
def Event.is_send_control : Event → Bool
  | Event.send_control _ _ _ _ => true
  | _ => false


/-- The in-order data segment of the scenarios: only ACK set, 2000..2100, 100 payload bytes,
`ack = 500`. -/
def data_seg : tcp_cb :=
  { seq := 2000, seq_end := 2100, ack := 500, rwnd := 4000, flags := TCP_ACK,
    payload := List.replicate 100 5, pl_len := 100 }

/-- The out-of-order segment of the scenarios: only ACK set, 2100..2200, 100 payload bytes. -/
def late_seg : tcp_cb :=
  { seq := 2100, seq_end := 2200, ack := 500, rwnd := 4000, flags := TCP_ACK,
    payload := List.replicate 100 7, pl_len := 100 }

/-- The listener of the passive-handshake scenario: state LISTEN, `snd_nxt = 1000`,
`rcv_nxt = 0`. -/
def listen_sock : tcp_sock :=
  { state := TCP_LISTEN, snd_una := 1000, snd_nxt := 1000, snd_wnd := 0, rcv_nxt := 0,
    rcv_wnd := 4000, rcv_buf := ring4000 }

/-- The SYN of the passive-handshake scenario: `seq = 500`, `seq_end = 501`, `rwnd = 4096`. -/
def syn_seg : tcp_cb := { seq := 500, seq_end := 501, ack := 0, rwnd := 4096, flags := TCP_SYN }

/-- A child in SYN_RECV on its parent's listen queue: SYN|ACK outstanding
(`snd_una = 1000`, `snd_nxt = 1001`), `rcv_nxt = 501`, `snd_wnd = 4000`. -/
def syn_recv_sock : tcp_sock :=
  { state := TCP_SYN_RECV, snd_una := 1000, snd_nxt := 1001, snd_wnd := 4000, rcv_nxt := 501,
    rcv_wnd := 4000, rcv_buf := ring4000, has_parent := true, list := queue_link.listen_queue }

/-- The handshake-completing ACK of the scenario: `seq = 501`, `ack = 1001`, `rwnd = 4096`. -/
def handshake_ack_seg : tcp_cb :=
  { seq := 501, seq_end := 501, ack := 1001, rwnd := 4096, flags := TCP_ACK }

/-- A connection in SYN_SENT: SYN sent with sequence number 1000 (`snd_nxt = 1001`), nothing
received yet (`rcv_nxt = 0`). -/
def syn_sent_sock : tcp_sock :=
  { state := TCP_SYN_SENT, snd_una := 1000, snd_nxt := 1001, snd_wnd := 0, rcv_nxt := 0,
    rcv_wnd := 4000, rcv_buf := ring4000 }

/-- A SYN|ACK whose initial sequence number is 0x90000000, acknowledging the SYN of
`syn_sent_sock`. -/
def synack_seg : tcp_cb :=
  { seq := 0x90000000, seq_end := 0x90000001, ack := 1001, rwnd := 4000,
    flags := TCP_SYN ||| TCP_ACK }

/-- A segment with RST and ACK set whose acknowledgement (77) is not `snd_nxt` of
`syn_sent_sock`. -/
def rst_ack_seg : tcp_cb :=
  { seq := 7000, seq_end := 7000, ack := 77, rwnd := 0, flags := TCP_RST ||| TCP_ACK }

/-- A segment with only RST set. -/
def rst_seg : tcp_cb := { seq := 2000, seq_end := 2000, ack := 0, rwnd := 0, flags := TCP_RST }

/-- A segment with only ACK set (no SYN) that acknowledges the SYN of `syn_sent_sock`. -/
def lone_ack_seg : tcp_cb :=
  { seq := 7000, seq_end := 7000, ack := 1001, rwnd := 4000, flags := TCP_ACK }

/-- A segment with only FIN set, arriving in SYN_SENT. -/
def lone_fin_seg : tcp_cb :=
  { seq := 7000, seq_end := 7001, ack := 0, rwnd := 4000, flags := TCP_FIN }

/-- The connection of the passive-close scenario: ESTABLISHED, `rcv_nxt = 5000`,
`snd_una = snd_nxt = 800`. -/
def close_sock : tcp_sock :=
  { state := TCP_ESTABLISHED, snd_una := 800, snd_nxt := 800, snd_wnd := 4000,
    rcv_nxt := 5000, rcv_wnd := 4000, rcv_buf := ring4000, RTO := 200 }

/-- The FIN|ACK of the passive-close scenario: `seq = 5000`, `seq_end = 5001`, `ack = 800`. -/
def fin_ack_seg : tcp_cb :=
  { seq := 5000, seq_end := 5001, ack := 800, rwnd := 4000, flags := TCP_FIN ||| TCP_ACK }

/-- Whether the retransmit timer is armed: its `enable` field is set. -/
def retrans_timer_armed (tsk : tcp_sock) : Prop := tsk.retrans_timer.enable ≠ 0

instance (tsk : tcp_sock) : Decidable (retrans_timer_armed tsk) := by
  unfold retrans_timer_armed
  infer_instance

/-- The connection `est_sock` with a closed send window (`snd_wnd = 0`). -/
def zero_wnd_sock : tcp_sock := { est_sock with snd_wnd := 0 }

/-- A pure window update: only ACK set, no payload, `seq = seq_end = 2000`, `ack = 500`,
`rwnd = 3000`. -/
def window_update_seg : tcp_cb :=
  { seq := 2000, seq_end := 2000, ack := 500, rwnd := 3000, flags := TCP_ACK }

/-- A segment that again advertises a closed window (`rwnd = 0`). -/
def zero_rwnd_seg : tcp_cb :=
  { seq := 2000, seq_end := 2000, ack := 500, rwnd := 0, flags := TCP_ACK }

/-- The child `syn_recv_sock` with its SYN|ACK (1000..1001) still queued for retransmission. -/
def syn_recv_queued_sock : tcp_sock :=
  { syn_recv_sock with send_buf := [{ seq := 1000, seq_end := 1001 }],
                       retrans_timer := { enable := 1, timeout := 200 } }

/-- The connection `est_sock` with a closed send window (`snd_wnd = 0`) and one segment
400..500 in flight (`snd_una = 400`, `snd_nxt = 500`). -/
def inflight_zero_wnd_sock : tcp_sock :=
  { est_sock with snd_wnd := 0, snd_una := 400, send_buf := [{ seq := 400, seq_end := 500 }],
                  retrans_timer := { enable := 1, timeout := 200 } }

/-! ## The writes to `rcv_buf` and runs of `tcp_process` -/

/-- One call of `write_ring_buffer` on `rcv_buf`: the value of `rcv_nxt` at the moment of the
call and the fragment whose bytes are written. -/
structure rcv_write where
  rcv_nxt : Nat
  item : tcp_payload_cache
  deriving DecidableEq, Repr

/-- The bytes a list of writes appends to `rcv_buf`, in order. -/
def written_bytes : List rcv_write → List Nat
  | [] => []
  | w :: ws => w.item.payload.take w.item.len ++ written_bytes ws

/-- The calls of `write_ring_buffer` the promotion loop (lines 403-419) makes, in order: the
loop `ofo_promote_loop` with every write recorded. -/
def ofo_promote_writes : List tcp_payload_cache → tcp_sock → List rcv_write
  | [], _ => []
  | item :: rest, tsk =>
    if tsk.rcv_nxt = item.seq ∧ ring_buffer_free tsk.rcv_buf > item.len then
      let w : rcv_write := { rcv_nxt := tsk.rcv_nxt, item := item }
      let tsk := { tsk with rcv_nxt := item.seq_end }
      let tsk := { tsk with rcv_buf := write_ring_buffer tsk.rcv_buf item.payload item.len }
      let tsk := { tsk with rcv_wnd := sub16 tsk.rcv_wnd item.len }
      w :: ofo_promote_writes rest tsk
    else
      []

/-- The writes of the payload branch (lines 335-440). -/
def tcp_process_payload_writes (tsk : tcp_sock) (cb : tcp_cb) : List rcv_write :=
  let new_item : tcp_payload_cache :=
    { seq := cb.seq, seq_end := cb.seq_end, payload := cb.payload.take cb.pl_len,
      len := cb.pl_len }
  let tsk := { tsk with rcv_ofo_buf := ofo_insert new_item tsk.rcv_ofo_buf }
  ofo_promote_writes tsk.rcv_ofo_buf tsk

/-- The writes of the generic data/ACK path (lines 313-441). -/
def tcp_process_data_writes (tsk : tcp_sock) (cb : tcp_cb) : List rcv_write :=
  if is_tcp_seq_valid tsk cb = false then
    []
  else
    let a := tcp_ack_data tsk cb
    let tsk := a.1
    if cb.ack > tsk.snd_nxt then []
    else if cb.pl_len > 0 then tcp_process_payload_writes tsk cb
    else []

/-- The writes to `rcv_buf` during one call of `tcp_process`: none in the branches that
return before the generic path (`tcp_recv_data` is never called), those of the generic path
otherwise. -/
def tcp_process_writes (tsk : tcp_sock) (cb : tcp_cb) : List rcv_write :=
  if tsk.state = TCP_CLOSED then []
  else if tsk.state = TCP_LISTEN ∧ cb.flags &&& TCP_SYN ≠ 0 then []
  else if tsk.state = TCP_SYN_SENT ∧ cb.flags &&& (TCP_SYN ||| TCP_ACK) ≠ 0 then []
  else if tsk.state = TCP_SYN_RECV ∧ cb.flags &&& TCP_ACK ≠ 0 then []
  else if cb.flags &&& TCP_RST ≠ 0 then []
  else if cb.flags &&& TCP_SYN ≠ 0 then []
  else if cb.flags &&& TCP_ACK = 0 then []
  else if cb.flags &&& TCP_FIN ≠ 0 ∧ tsk.state = TCP_ESTABLISHED ∧ cb.seq = tsk.rcv_nxt then []
  else if tsk.state = TCP_FIN_WAIT_1 ∧ cb.flags &&& TCP_ACK ≠ 0 ∧ cb.ack = tsk.snd_nxt then []
  else if tsk.state = TCP_FIN_WAIT_2 ∧ cb.flags &&& TCP_FIN ≠ 0 ∧ cb.seq = tsk.rcv_nxt then []
  else if tsk.state = TCP_LAST_ACK ∧ cb.flags &&& TCP_ACK ≠ 0 ∧ cb.ack = tsk.snd_nxt then []
  else tcp_process_data_writes tsk cb

/-- The socket after `tcp_process` has handled the segments of a list one after the other. -/
def tcp_run (env : Env) : tcp_sock → List tcp_cb → tcp_sock
  | tsk, [] => tsk
  | tsk, cb :: rest => tcp_run env (tcp_process env tsk cb).tsk rest

/-- The writes to `rcv_buf` during a run, in order. -/
def tcp_run_writes (env : Env) : tcp_sock → List tcp_cb → List rcv_write
  | _, [] => []
  | tsk, cb :: rest =>
    tcp_process_writes tsk cb ++ tcp_run_writes env (tcp_process env tsk cb).tsk rest

/-- The offset of the sequence number `x` from the anchor `a`, as a `u32`. -/
def seq_off (a x : Nat) : Nat := sub32 x a

/-- A fragment lies in the half of the sequence space ahead of the anchor `a` and is not
empty: `a ≤ seq < seq_end`, all within two to the 31 of `a`. -/
def frag_in_window (a : Nat) (x : tcp_payload_cache) : Prop :=
  seq_off a x.seq < seq_off a x.seq_end ∧ seq_off a x.seq_end < 2147483648

/-- A segment lies in the half of the sequence space ahead of the anchor `a`: its `seq_end`
is not behind its `seq`, and is ahead of it when the segment carries payload. -/
def seg_in_window (a : Nat) (cb : tcp_cb) : Prop :=
  seq_off a cb.seq ≤ seq_off a cb.seq_end ∧ seq_off a cb.seq_end < 2147483648 ∧
  (0 < cb.pl_len → seq_off a cb.seq < seq_off a cb.seq_end)

instance (a : Nat) (x : tcp_payload_cache) : Decidable (frag_in_window a x) := by
  unfold frag_in_window
  infer_instance

instance (a : Nat) (cb : tcp_cb) : Decidable (seg_in_window a cb) := by
  unfold seg_in_window
  infer_instance

/-- A buffered fragment 2000..2100 of 100 bytes. -/
def head_frag : tcp_payload_cache :=
  { seq := 2000, seq_end := 2100, payload := List.replicate 100 5, len := 100 }

/-- The connection `est_sock` (`rcv_nxt = 2000`) with `head_frag` buffered and exactly 100
free bytes in the ring. -/
def tight_sock : tcp_sock :=
  { est_sock with rcv_buf := { free := 100 }, rcv_ofo_buf := [head_frag] }

/-- The connection `est_sock` with `head_frag` buffered and 101 free bytes in the ring. -/
def roomy_sock : tcp_sock :=
  { est_sock with rcv_buf := { free := 101 }, rcv_ofo_buf := [head_frag] }

/-! # Theorems -/

/-! ## Cumulative acknowledgement: lemmas on `tcp_ack_data` -/

theorem tcp_ack_data_loop_buf (ack : Nat) (l : List tcp_packet_cache) (u : Nat) (b : Bool) :
    (tcp_ack_data_loop ack l u b).1 = l.filter (fun p => decide (ack < p.seq_end)) := by
  induction l generalizing u b with
  | nil => rfl
  | cons item rest ih =>
    unfold tcp_ack_data_loop
    by_cases h1 : item.seq_end ≤ ack
    · have h2 : ¬ ack < item.seq_end := by omega
      by_cases h3 : item.seq_end > u <;> simp [h1, h2, h3, ih]
    · have h2 : ack < item.seq_end := by omega
      simp [h1, h2, ih]

theorem tcp_ack_data_loop_una (ack : Nat) (l : List tcp_packet_cache) (u : Nat) (b : Bool) :
    u ≤ (tcp_ack_data_loop ack l u b).2.1 ∧
    (∀ p ∈ l, p.seq_end ≤ ack → p.seq_end ≤ (tcp_ack_data_loop ack l u b).2.1) ∧
    ((tcp_ack_data_loop ack l u b).2.1 = u ∨
      ∃ p ∈ l, p.seq_end ≤ ack ∧ u < p.seq_end ∧ (tcp_ack_data_loop ack l u b).2.1 = p.seq_end) ∧
    (tcp_ack_data_loop ack l u b).2.2 = (b || decide (u < (tcp_ack_data_loop ack l u b).2.1)) := by
  induction l generalizing u b with
  | nil => simp [tcp_ack_data_loop]
  | cons item rest ih =>
    unfold tcp_ack_data_loop
    by_cases h1 : item.seq_end ≤ ack
    · by_cases h3 : item.seq_end > u
      · simp only [h1, h3, if_true]
        obtain ⟨a1, a2, a3, a4⟩ := ih item.seq_end true
        refine ⟨by omega, ?_, ?_, ?_⟩
        · intro p hp hpa
          rcases List.mem_cons.1 hp with rfl | hp
          · exact a1
          · exact a2 p hp hpa
        · right
          rcases a3 with a3 | ⟨p, hp, hpa, hpu, hpe⟩
          · exact ⟨item, List.mem_cons_self _ _, h1, h3, a3⟩
          · exact ⟨p, List.mem_cons_of_mem _ hp, hpa, by omega, hpe⟩
        · rw [a4]
          have : u < (tcp_ack_data_loop ack rest item.seq_end true).2.1 := by omega
          simp [this]
      · simp only [h1, h3, if_true, if_false]
        obtain ⟨a1, a2, a3, a4⟩ := ih u b
        refine ⟨a1, ?_, ?_, a4⟩
        · intro p hp hpa
          rcases List.mem_cons.1 hp with rfl | hp
          · omega
          · exact a2 p hp hpa
        · rcases a3 with a3 | ⟨p, hp, hpa, hpu, hpe⟩
          · exact Or.inl a3
          · exact Or.inr ⟨p, List.mem_cons_of_mem _ hp, hpa, hpu, hpe⟩
    · simp only [h1, if_false]
      obtain ⟨a1, a2, a3, a4⟩ := ih u b
      refine ⟨a1, ?_, ?_, a4⟩
      · intro p hp hpa
        rcases List.mem_cons.1 hp with rfl | hp
        · omega
        · exact a2 p hp hpa
      · rcases a3 with a3 | ⟨p, hp, hpa, hpu, hpe⟩
        · exact Or.inl a3
        · exact Or.inr ⟨p, List.mem_cons_of_mem _ hp, hpa, hpu, hpe⟩

/-- The socket fields `tcp_ack_data` leaves alone. -/
theorem tcp_ack_data_frame (tsk : tcp_sock) (cb : tcp_cb) :
    (tcp_ack_data tsk cb).1.state = tsk.state ∧
    (tcp_ack_data tsk cb).1.snd_nxt = tsk.snd_nxt ∧
    (tcp_ack_data tsk cb).1.snd_wnd = tsk.snd_wnd ∧
    (tcp_ack_data tsk cb).1.rcv_nxt = tsk.rcv_nxt ∧
    (tcp_ack_data tsk cb).1.rcv_wnd = tsk.rcv_wnd ∧
    (tcp_ack_data tsk cb).1.rcv_ofo_buf = tsk.rcv_ofo_buf ∧
    (tcp_ack_data tsk cb).1.rcv_buf = tsk.rcv_buf ∧
    (tcp_ack_data tsk cb).1.hashed = tsk.hashed ∧
    (tcp_ack_data tsk cb).1.list = tsk.list := by
  unfold tcp_ack_data tcp_unset_retrans_timer
  simp only []
  split_ifs <;> simp

/-- The send side after `tcp_ack_data` when the acknowledgement is in range. -/
theorem tcp_ack_data_in_range (tsk : tcp_sock) (cb : tcp_cb)
    (hlo : tsk.snd_una ≤ cb.ack) (hhi : cb.ack ≤ tsk.snd_nxt) :
    (tcp_ack_data tsk cb).1.send_buf = (tcp_ack_data_loop cb.ack tsk.send_buf tsk.snd_una false).1 ∧
    (tcp_ack_data tsk cb).1.snd_una = (tcp_ack_data_loop cb.ack tsk.send_buf tsk.snd_una false).2.1 ∧
    (tcp_ack_data tsk cb).2 =
      (if (tcp_ack_data_loop cb.ack tsk.send_buf tsk.snd_una false).2.2 = true
        then [Event.wake_up wait_point.wait_send] else []) := by
  unfold tcp_ack_data tcp_unset_retrans_timer
  have h : cb.ack ≤ tsk.snd_nxt ∧ cb.ack ≥ tsk.snd_una := ⟨hhi, hlo⟩
  simp only [h, and_self, if_true]
  split_ifs <;> simp

/-- The send side after `tcp_ack_data` when the acknowledgement is out of range. -/
theorem tcp_ack_data_out_of_range (tsk : tcp_sock) (cb : tcp_cb)
    (h : ¬ (cb.ack ≤ tsk.snd_nxt ∧ cb.ack ≥ tsk.snd_una)) :
    tcp_ack_data tsk cb = (tsk, []) := by
  unfold tcp_ack_data
  simp only [h, if_false]


/-- C1: cumulative-ACK pruning.  When every queued entry satisfies
`snd_una ≤ seq < seq_end ≤ snd_nxt` (natural-number order, no wrap) and
`snd_una ≤ A ≤ snd_nxt`, then after `tcp_ack_data` the queue is exactly the original entries
with `seq_end > A` in their original order; `snd_una` is unchanged when no entry is removed
and otherwise is the largest `seq_end` among the removed entries; and `wait_send` is woken
exactly when `snd_una` advanced.  (The order of the queue by `seq` is not needed.) -/
theorem tcp_ack_data_cumulative (tsk : tcp_sock) (cb : tcp_cb)
    (hbuf : ∀ p ∈ tsk.send_buf,
      tsk.snd_una ≤ p.seq ∧ p.seq < p.seq_end ∧ p.seq_end ≤ tsk.snd_nxt)
    (hlo : tsk.snd_una ≤ cb.ack) (hhi : cb.ack ≤ tsk.snd_nxt) :
    (tcp_ack_data tsk cb).1.send_buf
        = tsk.send_buf.filter (fun p => decide (cb.ack < p.seq_end)) ∧
    ((∀ p ∈ tsk.send_buf, ¬ p.seq_end ≤ cb.ack) →
        (tcp_ack_data tsk cb).1.snd_una = tsk.snd_una) ∧
    ((∃ p ∈ tsk.send_buf, p.seq_end ≤ cb.ack) →
        (∃ p ∈ tsk.send_buf, p.seq_end ≤ cb.ack ∧ (tcp_ack_data tsk cb).1.snd_una = p.seq_end) ∧
        (∀ p ∈ tsk.send_buf, p.seq_end ≤ cb.ack → p.seq_end ≤ (tcp_ack_data tsk cb).1.snd_una)) ∧
    (Event.wake_up wait_point.wait_send ∈ (tcp_ack_data tsk cb).2
        ↔ tsk.snd_una < (tcp_ack_data tsk cb).1.snd_una) := by
  obtain ⟨e1, e2, e3⟩ := tcp_ack_data_in_range tsk cb hlo hhi
  obtain ⟨a1, a2, a3, a4⟩ := tcp_ack_data_loop_una cb.ack tsk.send_buf tsk.snd_una false
  rw [e1, e2, e3, tcp_ack_data_loop_buf]
  refine ⟨rfl, ?_, ?_, ?_⟩
  · intro hnone
    rcases a3 with a3 | ⟨p, hp, hpa, _, _⟩
    · exact a3
    · exact absurd hpa (hnone p hp)
  · rintro ⟨q, hq, hqa⟩
    refine ⟨?_, a2⟩
    rcases a3 with a3 | ⟨p, hp, hpa, _, hpe⟩
    · have h1 := a2 q hq hqa
      have h2 := hbuf q hq
      omega
    · exact ⟨p, hp, hpa, hpe⟩
  · rw [a4]
    by_cases h : tsk.snd_una < (tcp_ack_data_loop cb.ack tsk.send_buf tsk.snd_una false).2.1
    · simp [h]
    · simp [h]

/-- C1, at the scenario of the specification: with the queue
1000..1100, 1100..1250, 1250..1300, `snd_una = 1000`, `snd_nxt = 1300` and `A = 1250` the first
two entries are removed, `snd_una = 1250` and `wait_send` is woken. -/
theorem tcp_ack_data_cumulative_scenario :
    (tcp_ack_data ack_sock ack_seg).1.send_buf = [{ seq := 1250, seq_end := 1300 }] ∧
    (tcp_ack_data ack_sock ack_seg).1.snd_una = 1250 ∧
    (tcp_ack_data ack_sock ack_seg).1.send_buf
        = ack_sock.send_buf.filter (fun p => decide (ack_seg.ack < p.seq_end)) ∧
    (Event.wake_up wait_point.wait_send ∈ (tcp_ack_data ack_sock ack_seg).2
        ↔ ack_sock.snd_una < (tcp_ack_data ack_sock ack_seg).1.snd_una) :=
  have h := tcp_ack_data_cumulative ack_sock ack_seg (by decide) (by decide) (by decide)
  ⟨by decide, by decide, h.1, h.2.2.2⟩

/-- C2: at `snd_una = 0xFFFFFF00`, `snd_nxt = 0x00000100`, `A = 0x00000010` the
acknowledgement lies in the send space in the modular order and covers the queued segment
0xFFFFFF00..0x00000010, yet `tcp_ack_data` compares with the plain `u32` order, finds
`A ≥ snd_una` false, and leaves the queue, `snd_una` and the timer untouched. -/
theorem tcp_ack_data_ignores_wrapped_ack :
    less_or_equal_32b wrap_sock.snd_una wrap_seg.ack = true ∧
    less_or_equal_32b wrap_seg.ack wrap_sock.snd_nxt = true ∧
    (∀ p ∈ wrap_sock.send_buf, less_or_equal_32b p.seq_end wrap_seg.ack = true) ∧
    tcp_ack_data wrap_sock wrap_seg = (wrap_sock, []) ∧
    (tcp_ack_data wrap_sock wrap_seg).1.send_buf = [{ seq := 0xFFFFFF00, seq_end := 0x00000010 }] := by
  decide

/-- C3: the buffer 2100..2200, 2300..2400 is sorted and disjoint and the segment
2150..2250 passes the receive-window test; it overlaps the first entry without being a
duplicate, the scan moves on to the second entry, and the segment is linked in front of it:
the buffer after `tcp_process` is 2100..2200, 2150..2250, 2300..2400, which is not disjoint. -/
theorem tcp_process_links_overlapping_segment :
    ofo_sorted_disjoint ofo_sock.rcv_ofo_buf ∧
    is_tcp_seq_valid ofo_sock overlap_seg = true ∧
    ((tcp_process scen_env ofo_sock overlap_seg).tsk.rcv_ofo_buf.map (fun e => (e.seq, e.seq_end))
        = [(2100, 2200), (2150, 2250), (2300, 2400)]) ∧
    ¬ ofo_sorted_disjoint (tcp_process scen_env ofo_sock overlap_seg).tsk.rcv_ofo_buf := by
  decide

/-- C4: on the ESTABLISHED connection with `rcv_nxt = 2000` and an empty
out-of-order buffer, the segment 1900..2100 passes the receive-window test
(`seq < rcv_nxt ≤ seq_end`), is stored in `rcv_ofo_buf` untrimmed, and is not promoted: after
`tcp_process` the buffer holds an entry with `seq = 1900`, which is below `rcv_nxt = 2000`. -/
theorem tcp_process_stores_segment_below_rcv_nxt :
    is_tcp_seq_valid est_sock stale_seg = true ∧
    (tcp_process scen_env est_sock stale_seg).tsk.rcv_nxt = 2000 ∧
    ((tcp_process scen_env est_sock stale_seg).tsk.rcv_ofo_buf.map (fun e => (e.seq, e.seq_end))
        = [(1900, 2100)]) ∧
    (∃ e ∈ (tcp_process scen_env est_sock stale_seg).tsk.rcv_ofo_buf,
      less_than_32b e.seq (tcp_process scen_env est_sock stale_seg).tsk.rcv_nxt = true) := by
  decide


theorem less_than_32b_iff (a b : Nat) :
    less_than_32b a b = true ↔ 2147483648 ≤ sub32 a b := by
  unfold less_than_32b toInt32 sub32 U32
  simp only [decide_eq_true_eq]
  split_ifs <;> omega

theorem less_or_equal_32b_iff (a b : Nat) :
    less_or_equal_32b a b = true ↔ (sub32 a b = 0 ∨ 2147483648 ≤ sub32 a b) := by
  unfold less_or_equal_32b toInt32 sub32 U32
  simp only [decide_eq_true_eq]
  split_ifs <;> omega

theorem flags_ack_syn : TCP_ACK &&& TCP_SYN = 0 := by decide
theorem flags_ack_rst : TCP_ACK &&& TCP_RST = 0 := by decide
theorem flags_ack_fin : TCP_ACK &&& TCP_FIN = 0 := by decide
theorem flags_ack_ack : TCP_ACK &&& TCP_ACK ≠ 0 := by decide
theorem flags_ack_ne : TCP_ACK ≠ 0 := by decide

/-- An ESTABLISHED connection hands a segment with only ACK set to the generic data path. -/
theorem tcp_process_established_ack (env : Env) (tsk : tcp_sock) (cb : tcp_cb)
    (hst : tsk.state = TCP_ESTABLISHED) (hflags : cb.flags = TCP_ACK) :
    tcp_process env tsk cb
      = { tsk := (tcp_process_data tsk cb).1, events := (tcp_process_data tsk cb).2 } := by
  unfold tcp_process
  simp [hst, hflags, flags_ack_syn, flags_ack_rst, flags_ack_fin, flags_ack_ack, flags_ack_ne]

/-- After `tcp_ack_data`, `snd_una` does not exceed an acknowledgement that was in range. -/
theorem tcp_ack_data_una_le_ack (tsk : tcp_sock) (cb : tcp_cb)
    (hlo : tsk.snd_una ≤ cb.ack) (hhi : cb.ack ≤ tsk.snd_nxt) :
    (tcp_ack_data tsk cb).1.snd_una ≤ cb.ack := by
  obtain ⟨_, e2, _⟩ := tcp_ack_data_in_range tsk cb hlo hhi
  obtain ⟨_, _, a3, _⟩ := tcp_ack_data_loop_una cb.ack tsk.send_buf tsk.snd_una false
  rw [e2]
  rcases a3 with a3 | ⟨p, _, hpa, _, hpe⟩ <;> omega

/-- Every event of `tcp_ack_data` is a wake-up of `wait_send`. -/
theorem tcp_ack_data_events (tsk : tcp_sock) (cb : tcp_cb) :
    ∀ e ∈ (tcp_ack_data tsk cb).2, e = Event.wake_up wait_point.wait_send := by
  unfold tcp_ack_data tcp_unset_retrans_timer
  simp only []
  split_ifs <;> simp

/-- The window update changes `snd_wnd` only and wakes nothing but `wait_send`. -/
theorem tcp_update_window_safe_frame (tsk : tcp_sock) (cb : tcp_cb) :
    (∃ w, (tcp_update_window_safe tsk cb).1 = { tsk with snd_wnd := w }) ∧
    ∀ e ∈ (tcp_update_window_safe tsk cb).2, e = Event.wake_up wait_point.wait_send := by
  unfold tcp_update_window_safe tcp_update_window
  simp only []
  split_ifs
  · exact ⟨⟨_, rfl⟩, by simp⟩
  · exact ⟨⟨_, rfl⟩, by simp⟩
  · exact ⟨⟨tsk.snd_wnd, rfl⟩, by simp⟩


theorem sub16_of_le (a n : Nat) (h : n ≤ a) (ha : a < U16) : sub16 a n = a - n := by
  unfold sub16
  unfold U16 at *
  omega

/-- A segment that starts at `rcv_nxt` and carries `n` bytes within a 16-bit window passes the
receive-window test. -/
theorem is_tcp_seq_valid_in_order (tsk : tcp_sock) (cb : tcp_cb) (n : Nat)
    (hseq : cb.seq = tsk.rcv_nxt) (hend : cb.seq_end = (cb.seq + n) % U32)
    (hwnd : n ≤ tsk.rcv_wnd) (hw16 : tsk.rcv_wnd < U16) :
    is_tcp_seq_valid tsk cb = true := by
  unfold is_tcp_seq_valid
  simp only [Bool.and_eq_true, less_than_32b_iff, less_or_equal_32b_iff]
  rw [hend, hseq]
  unfold sub32
  unfold U32 U16 at *
  have hm : max tsk.rcv_wnd 1 ≤ 65535 := by omega
  have hm1 : 1 ≤ max tsk.rcv_wnd 1 := le_max_right _ _
  generalize max tsk.rcv_wnd 1 = m at hm hm1
  omega

/-- The generic data path on a payload segment that passes the receive-window test and whose
acknowledgement does not exceed `snd_nxt`: the queue is pruned, a corrective ACK is sent when
the acknowledgement is behind `snd_una`, and the payload branch runs. -/
theorem tcp_process_data_payload (tsk : tcp_sock) (cb : tcp_cb)
    (hvalid : is_tcp_seq_valid tsk cb = true) (hhi : cb.ack ≤ tsk.snd_nxt)
    (hpl : 0 < cb.pl_len) :
    (tcp_process_data tsk cb).1 = (tcp_process_payload (tcp_ack_data tsk cb).1 cb).1 ∧
    (tcp_process_data tsk cb).2
      = (tcp_ack_data tsk cb).2
        ++ (if cb.ack < (tcp_ack_data tsk cb).1.snd_una
              then [tcp_send_control_packet (tcp_ack_data tsk cb).1 TCP_ACK] else [])
        ++ (tcp_process_payload (tcp_ack_data tsk cb).1 cb).2 := by
  have hn : (tcp_ack_data tsk cb).1.snd_nxt = tsk.snd_nxt := (tcp_ack_data_frame tsk cb).2.1
  have h1 : ¬ cb.ack > (tcp_ack_data tsk cb).1.snd_nxt := by rw [hn]; omega
  unfold tcp_process_data
  simp only [hvalid, Bool.true_eq_false, if_false, h1, hpl, gt_iff_lt, if_true]
  exact ⟨trivial, trivial⟩

/-- C6: in-order data.  On an ESTABLISHED connection with an empty out-of-order buffer,
a segment with only ACK set, `seq = rcv_nxt`, `n > 0` payload bytes, `seq_end = seq + n` (32-bit),
`snd_una ≤ ack ≤ snd_nxt` (as `tcp_ack_data` compares them), `n` within the 16-bit receive
window and a ring with more than `n` free bytes: after `tcp_process`, `rcv_nxt = seq_end`,
`rcv_wnd` has dropped by exactly `n`, the payload has been appended to `rcv_buf`, the only
control packet of the trace is one ACK carrying the advanced `rcv_nxt`, `wait_recv` is woken
and the state is still ESTABLISHED. -/
theorem tcp_process_in_order_data (env : Env) (tsk : tcp_sock) (cb : tcp_cb) (n : Nat)
    (hst : tsk.state = TCP_ESTABLISHED) (hofo : tsk.rcv_ofo_buf = [])
    (hflags : cb.flags = TCP_ACK) (hseq : cb.seq = tsk.rcv_nxt)
    (hn : 0 < n) (hpl : cb.pl_len = n) (hlen : cb.payload.length = n)
    (hend : cb.seq_end = (cb.seq + n) % U32)
    (hlo : tsk.snd_una ≤ cb.ack) (hhi : cb.ack ≤ tsk.snd_nxt)
    (hwnd : n ≤ tsk.rcv_wnd) (hw16 : tsk.rcv_wnd < U16)
    (hroom : n < ring_buffer_free tsk.rcv_buf) :
    (tcp_process env tsk cb).tsk.rcv_nxt = cb.seq_end ∧
    (tcp_process env tsk cb).tsk.rcv_wnd + n = tsk.rcv_wnd ∧
    (tcp_process env tsk cb).tsk.rcv_buf.data = tsk.rcv_buf.data ++ cb.payload ∧
    (tcp_process env tsk cb).events.filter Event.is_send_control
      = [Event.send_control TCP_ACK tsk.snd_nxt cb.seq_end (tsk.rcv_wnd - n)] ∧
    Event.wake_up wait_point.wait_recv ∈ (tcp_process env tsk cb).events ∧
    (tcp_process env tsk cb).tsk.state = TCP_ESTABLISHED := by
  have hvalid := is_tcp_seq_valid_in_order tsk cb n hseq hend hwnd hw16
  obtain ⟨d1, d2⟩ := tcp_process_data_payload tsk cb hvalid hhi (by omega)
  obtain ⟨f1, f2, f3, f4, f5, f6, f7, f8, f9⟩ := tcp_ack_data_frame tsk cb
  have hua := tcp_ack_data_una_le_ack tsk cb hlo hhi
  have hev := tcp_ack_data_events tsk cb
  rw [tcp_process_established_ack env tsk cb hst hflags]
  simp only [d1, d2]
  have h2 : ¬ cb.ack < (tcp_ack_data tsk cb).1.snd_una := by omega
  simp only [h2, if_false, List.append_nil]
  generalize tcp_ack_data tsk cb = a at *
  obtain ⟨t1, ev⟩ := a
  simp only at f1 f2 f3 f4 f5 f6 f7 f8 f9 hev ⊢
  have hroom1 : n < t1.rcv_buf.free := by rw [f7]; exact hroom
  have hpr : ofo_promote_loop
      [{ seq := cb.seq, seq_end := cb.seq_end, payload := cb.payload.take cb.pl_len, len := cb.pl_len }]
      { t1 with rcv_ofo_buf := [{ seq := cb.seq, seq_end := cb.seq_end,
                                  payload := cb.payload.take cb.pl_len, len := cb.pl_len }] } false
      = ({ t1 with rcv_ofo_buf := [], rcv_nxt := cb.seq_end,
                   rcv_buf := write_ring_buffer t1.rcv_buf (cb.payload.take cb.pl_len) cb.pl_len,
                   rcv_wnd := sub16 t1.rcv_wnd cb.pl_len }, true) := by
    simp [ofo_promote_loop, f4, hseq, hpl, ring_buffer_free, hroom1]
  unfold tcp_process_payload
  simp only [f6, hofo, ofo_insert, ne_eq, not_true_eq_false, if_false, hpr, if_true]
  obtain ⟨⟨w, hw⟩, hwe⟩ := tcp_update_window_safe_frame
    { t1 with rcv_ofo_buf := [], rcv_nxt := cb.seq_end,
              rcv_buf := write_ring_buffer t1.rcv_buf (cb.payload.take cb.pl_len) cb.pl_len,
              rcv_wnd := sub16 t1.rcv_wnd cb.pl_len } cb
  generalize tcp_update_window_safe _ cb = u at hw hwe
  obtain ⟨t2, ev2⟩ := u
  simp only at hw hwe
  subst hw
  have hs : sub16 tsk.rcv_wnd n = tsk.rcv_wnd - n := sub16_of_le _ _ hwnd hw16
  refine ⟨rfl, ?_, ?_, ?_, ?_, ?_⟩
  · simp only [f5, hpl, hs]; omega
  · simp [write_ring_buffer, f7, hpl, ← hlen]
  · have e1 : ev.filter Event.is_send_control = [] := by
      rw [List.filter_eq_nil_iff]
      intro e he
      rw [hev e he]
      simp [Event.is_send_control]
    have e2 : ev2.filter Event.is_send_control = [] := by
      rw [List.filter_eq_nil_iff]
      intro e he
      rw [hwe e he]
      simp [Event.is_send_control]
    simp [List.filter_append, e1, e2, Event.is_send_control, tcp_send_control_packet, f2, f5, hpl, hs,
      List.filter_cons]
  · simp
  · simp [f1, hst]


/-- The receive-window test for a segment lying inside the window, without wrap. -/
theorem is_tcp_seq_valid_of_window (tsk : tcp_sock) (cb : tcp_cb)
    (h1 : tsk.rcv_nxt ≤ cb.seq) (h2 : cb.seq < tsk.rcv_nxt + max tsk.rcv_wnd 1)
    (h3 : cb.seq ≤ cb.seq_end) (h4 : cb.seq_end ≤ tsk.rcv_nxt + tsk.rcv_wnd)
    (h5 : cb.seq_end < U32) (hw16 : tsk.rcv_wnd < U16) :
    is_tcp_seq_valid tsk cb = true := by
  unfold is_tcp_seq_valid
  simp only [Bool.and_eq_true, less_than_32b_iff, less_or_equal_32b_iff]
  unfold sub32
  unfold U32 U16 at *
  have hm : max tsk.rcv_wnd 1 ≤ 65535 := by omega
  generalize max tsk.rcv_wnd 1 = m at hm h2
  omega

/-- The payload branch in terms of its two loops: the socket is the one the promotion loop
leaves, up to `snd_wnd`; the trace is the wake-up of `wait_recv` when something was promoted,
then wake-ups of `wait_send` from the window update, then the ACK. -/
theorem tcp_process_payload_spec (tsk : tcp_sock) (cb : tcp_cb) (buf : List tcp_payload_cache)
    (hbuf : buf = ofo_insert { seq := cb.seq, seq_end := cb.seq_end,
                               payload := cb.payload.take cb.pl_len, len := cb.pl_len }
                             tsk.rcv_ofo_buf) :
    ∃ w ev2, (∀ e ∈ ev2, e = Event.wake_up wait_point.wait_send) ∧
      tcp_process_payload tsk cb
        = ({ (ofo_promote_loop buf { tsk with rcv_ofo_buf := buf } false).1 with snd_wnd := w },
           (if (ofo_promote_loop buf { tsk with rcv_ofo_buf := buf } false).2 = true
              then [Event.wake_up wait_point.wait_recv] else [])
           ++ ev2
           ++ [Event.send_control TCP_ACK
                (ofo_promote_loop buf { tsk with rcv_ofo_buf := buf } false).1.snd_nxt
                (ofo_promote_loop buf { tsk with rcv_ofo_buf := buf } false).1.rcv_nxt
                (ofo_promote_loop buf { tsk with rcv_ofo_buf := buf } false).1.rcv_wnd]) := by
  subst hbuf
  unfold tcp_process_payload
  simp only []
  generalize ofo_promote_loop _ _ false = r
  obtain ⟨⟨w, hw⟩, hwe⟩ := tcp_update_window_safe_frame r.1 cb
  refine ⟨w, (tcp_update_window_safe r.1 cb).2, hwe, ?_⟩
  rw [hw]
  rfl


theorem count_wait_recv_of_wait_send (l : List Event)
    (h : ∀ e ∈ l, e = Event.wake_up wait_point.wait_send) :
    l.count (Event.wake_up wait_point.wait_recv) = 0 := by
  rw [List.count_eq_zero]
  intro hmem
  have := h _ hmem
  simp at this

/-- A payload segment that is not at `rcv_nxt`, arriving on an ESTABLISHED connection with an
empty out-of-order buffer, is stored there; nothing is delivered and an ACK is sent. -/
theorem tcp_process_store_out_of_order (env : Env) (tsk : tcp_sock) (cb : tcp_cb)
    (hst : tsk.state = TCP_ESTABLISHED) (hofo : tsk.rcv_ofo_buf = [])
    (hflags : cb.flags = TCP_ACK) (hvalid : is_tcp_seq_valid tsk cb = true)
    (hhi : cb.ack ≤ tsk.snd_nxt) (hpl : 0 < cb.pl_len) (hne : tsk.rcv_nxt ≠ cb.seq) :
    (tcp_process env tsk cb).tsk.state = TCP_ESTABLISHED ∧
    (tcp_process env tsk cb).tsk.snd_nxt = tsk.snd_nxt ∧
    (tcp_process env tsk cb).tsk.rcv_nxt = tsk.rcv_nxt ∧
    (tcp_process env tsk cb).tsk.rcv_wnd = tsk.rcv_wnd ∧
    (tcp_process env tsk cb).tsk.rcv_buf = tsk.rcv_buf ∧
    (tcp_process env tsk cb).tsk.rcv_ofo_buf
      = [{ seq := cb.seq, seq_end := cb.seq_end, payload := cb.payload.take cb.pl_len,
           len := cb.pl_len }] ∧
    Event.send_control TCP_ACK tsk.snd_nxt tsk.rcv_nxt tsk.rcv_wnd
      ∈ (tcp_process env tsk cb).events ∧
    (tcp_process env tsk cb).events.count (Event.wake_up wait_point.wait_recv) = 0 := by
  obtain ⟨d1, d2⟩ := tcp_process_data_payload tsk cb hvalid hhi hpl
  obtain ⟨f1, f2, f3, f4, f5, f6, f7, f8, f9⟩ := tcp_ack_data_frame tsk cb
  have hev := tcp_ack_data_events tsk cb
  rw [tcp_process_established_ack env tsk cb hst hflags]
  simp only [d1, d2]
  generalize tcp_ack_data tsk cb = a at *
  obtain ⟨t1, ev⟩ := a
  simp only at f1 f2 f3 f4 f5 f6 f7 f8 f9 hev ⊢
  obtain ⟨w, ev2, hev2, hp⟩ := tcp_process_payload_spec t1 cb
    [{ seq := cb.seq, seq_end := cb.seq_end, payload := cb.payload.take cb.pl_len,
       len := cb.pl_len }] (by simp [ofo_insert, f6, hofo])
  have hne1 : ¬ (t1.rcv_nxt = cb.seq) := by rw [f4]; exact hne
  rw [hp]
  simp only [ofo_promote_loop, hne1, false_and, if_false, Bool.false_eq_true, List.nil_append]
  refine ⟨by simp [f1, hst], by simp [f2], by simp [f4], by simp [f5], by simp [f7],
    by simp, by simp [f2, f4, f5], ?_⟩
  simp only [List.count_append, count_wait_recv_of_wait_send ev hev,
    count_wait_recv_of_wait_send ev2 hev2]
  split_ifs <;> simp [tcp_send_control_packet]

/-- A payload segment at `rcv_nxt` that ends where the only buffered fragment starts, with
ring space for both: both are promoted in order. -/
theorem tcp_process_fill_gap (env : Env) (tsk : tcp_sock) (cb : tcp_cb) (x : tcp_payload_cache)
    (hst : tsk.state = TCP_ESTABLISHED) (hofo : tsk.rcv_ofo_buf = [x])
    (hflags : cb.flags = TCP_ACK) (hvalid : is_tcp_seq_valid tsk cb = true)
    (hhi : cb.ack ≤ tsk.snd_nxt) (hpl : 0 < cb.pl_len) (hseq : cb.seq = tsk.rcv_nxt)
    (hx : x.seq = cb.seq_end) (hlt : cb.seq ≠ cb.seq_end)
    (hroom : cb.pl_len + x.len < ring_buffer_free tsk.rcv_buf) :
    (tcp_process env tsk cb).tsk.rcv_nxt = x.seq_end ∧
    (tcp_process env tsk cb).tsk.rcv_ofo_buf = [] ∧
    (tcp_process env tsk cb).tsk.rcv_buf.data
      = tsk.rcv_buf.data ++ cb.payload.take cb.pl_len ++ x.payload.take x.len ∧
    (tcp_process env tsk cb).tsk.rcv_wnd = sub16 (sub16 tsk.rcv_wnd cb.pl_len) x.len ∧
    Event.send_control TCP_ACK tsk.snd_nxt x.seq_end (sub16 (sub16 tsk.rcv_wnd cb.pl_len) x.len)
      ∈ (tcp_process env tsk cb).events ∧
    (tcp_process env tsk cb).events.count (Event.wake_up wait_point.wait_recv) = 1 := by
  obtain ⟨d1, d2⟩ := tcp_process_data_payload tsk cb hvalid hhi hpl
  obtain ⟨f1, f2, f3, f4, f5, f6, f7, f8, f9⟩ := tcp_ack_data_frame tsk cb
  have hev := tcp_ack_data_events tsk cb
  rw [tcp_process_established_ack env tsk cb hst hflags]
  simp only [d1, d2]
  generalize tcp_ack_data tsk cb = a at *
  obtain ⟨t1, ev⟩ := a
  simp only at f1 f2 f3 f4 f5 f6 f7 f8 f9 hev ⊢
  have hdup : ¬ (cb.seq_end = cb.seq ∧ x.seq_end = cb.seq_end) := by
    rintro ⟨h, _⟩
    exact hlt h.symm
  obtain ⟨w, ev2, hev2, hp⟩ := tcp_process_payload_spec t1 cb
    [{ seq := cb.seq, seq_end := cb.seq_end, payload := cb.payload.take cb.pl_len,
       len := cb.pl_len }, x]
    (by simp [ofo_insert, ofo_insert_scan, f6, hofo, hdup, hx])
  have hr1 : cb.pl_len < t1.rcv_buf.free := by
    rw [f7]; unfold ring_buffer_free at hroom; omega
  have hr2 : x.len < t1.rcv_buf.free - cb.pl_len := by
    rw [f7]; unfold ring_buffer_free at hroom; omega
  rw [hp]
  simp only [ofo_promote_loop, f4, hseq, ring_buffer_free, write_ring_buffer, hr1, hr2, hx,
    gt_iff_lt, and_self, if_true]
  refine ⟨by simp, by simp, by simp [f7], by simp [f5], by simp [f2, f5], ?_⟩
  simp only [List.count_append, count_wait_recv_of_wait_send ev hev,
    count_wait_recv_of_wait_send ev2 hev2]
  split_ifs <;> simp [tcp_send_control_packet]


/-- C6 at the scenario of the specification: `rcv_nxt = 2000`, `rcv_wnd = 4000`, segment
2000..2100 with 100 bytes and `ack = 500`. -/
theorem tcp_process_in_order_data_scenario :
    (tcp_process scen_env est_sock data_seg).tsk.rcv_nxt = 2100 ∧
    (tcp_process scen_env est_sock data_seg).tsk.rcv_wnd + 100 = 4000 ∧
    (tcp_process scen_env est_sock data_seg).tsk.rcv_buf.data
      = est_sock.rcv_buf.data ++ data_seg.payload ∧
    (tcp_process scen_env est_sock data_seg).events.filter Event.is_send_control
      = [Event.send_control TCP_ACK 500 2100 (4000 - 100)] ∧
    Event.wake_up wait_point.wait_recv ∈ (tcp_process scen_env est_sock data_seg).events ∧
    (tcp_process scen_env est_sock data_seg).tsk.state = TCP_ESTABLISHED :=
  tcp_process_in_order_data scen_env est_sock data_seg 100 (by decide) (by decide) (by decide)
    (by decide) (by decide) (by decide) (by decide) (by decide) (by decide) (by decide)
    (by decide) (by decide) (by decide)

theorem less_or_equal_32b_refl (a : Nat) : less_or_equal_32b a a = true := by
  rw [less_or_equal_32b_iff]
  unfold sub32 U32
  omega

theorem ofo_insert_scan_mem (new_item : tcp_payload_cache) (buf : List tcp_payload_cache) :
    ∀ x ∈ ofo_insert_scan new_item buf, x = new_item ∨ x ∈ buf := by
  induction buf with
  | nil => simp [ofo_insert_scan]
  | cons item rest ih =>
    intro x hx
    unfold ofo_insert_scan at hx
    split_ifs at hx
    · exact Or.inr hx
    · rcases List.mem_cons.1 hx with h | h
      · exact Or.inl h
      · exact Or.inr h
    · simp only [List.mem_cons, List.mem_singleton, List.not_mem_nil, or_false] at hx
      rcases hx with h | h
      · exact Or.inr (by simp [h])
      · exact Or.inl h
    · rcases List.mem_cons.1 hx with h | h
      · exact Or.inr (by simp [h])
      · rcases ih x h with h | h
        · exact Or.inl h
        · exact Or.inr (List.mem_cons_of_mem _ h)
    · rcases List.mem_cons.1 hx with h | h
      · exact Or.inr (by simp [h])
      · rcases ih x h with h | h
        · exact Or.inl h
        · exact Or.inr (List.mem_cons_of_mem _ h)

theorem ofo_insert_mem (new_item : tcp_payload_cache) (buf : List tcp_payload_cache) :
    ∀ x ∈ ofo_insert new_item buf, x = new_item ∨ x ∈ buf := by
  intro x hx
  unfold ofo_insert at hx
  split_ifs at hx
  · exact ofo_insert_scan_mem new_item buf x hx
  · exact Or.inl (List.mem_singleton.1 hx)

/-- The promotion loop leaves `rcv_nxt` alone or at the `seq_end` of a visited entry, and
touches nothing of the send side or the state. -/
theorem ofo_promote_loop_rcv_nxt (l : List tcp_payload_cache) (t : tcp_sock) (b : Bool) :
    ((ofo_promote_loop l t b).1.rcv_nxt = t.rcv_nxt ∨
      ∃ x ∈ l, (ofo_promote_loop l t b).1.rcv_nxt = x.seq_end) ∧
    (ofo_promote_loop l t b).1.snd_una = t.snd_una ∧
    (ofo_promote_loop l t b).1.snd_nxt = t.snd_nxt ∧
    (ofo_promote_loop l t b).1.send_buf = t.send_buf ∧
    (ofo_promote_loop l t b).1.state = t.state := by
  induction l generalizing t b with
  | nil => simp [ofo_promote_loop]
  | cons item rest ih =>
    unfold ofo_promote_loop
    split_ifs with h
    · obtain ⟨i1, i2, i3, i4, i5⟩ := ih
        { t with rcv_nxt := item.seq_end,
                 rcv_buf := write_ring_buffer t.rcv_buf item.payload item.len,
                 rcv_wnd := sub16 t.rcv_wnd item.len } true
      refine ⟨?_, i2, i3, i4, i5⟩
      rcases i1 with i1 | ⟨x, hx, hxe⟩
      · exact Or.inr ⟨item, List.mem_cons_self _ _, i1⟩
      · exact Or.inr ⟨x, List.mem_cons_of_mem _ hx, hxe⟩
    · simp

/-- The generic data path: where `rcv_nxt` can end up, and what happens to the send side. -/
theorem tcp_process_data_sides (tsk : tcp_sock) (cb : tcp_cb) :
    ((tcp_process_data tsk cb).1.rcv_nxt = tsk.rcv_nxt ∨
      (is_tcp_seq_valid tsk cb = true ∧
        ((tcp_process_data tsk cb).1.rcv_nxt = cb.seq_end ∨
          ∃ x ∈ tsk.rcv_ofo_buf, (tcp_process_data tsk cb).1.rcv_nxt = x.seq_end))) ∧
    (((tcp_process_data tsk cb).1.snd_una = tsk.snd_una ∧
        (tcp_process_data tsk cb).1.snd_nxt = tsk.snd_nxt ∧
        (tcp_process_data tsk cb).1.send_buf = tsk.send_buf) ∨
      ((tcp_process_data tsk cb).1.snd_una = (tcp_ack_data tsk cb).1.snd_una ∧
        (tcp_process_data tsk cb).1.snd_nxt = (tcp_ack_data tsk cb).1.snd_nxt ∧
        (tcp_process_data tsk cb).1.send_buf = (tcp_ack_data tsk cb).1.send_buf)) ∧
    (tcp_process_data tsk cb).1.state = tsk.state := by
  obtain ⟨f1, f2, f3, f4, f5, f6, f7, f8, f9⟩ := tcp_ack_data_frame tsk cb
  unfold tcp_process_data
  by_cases hv : is_tcp_seq_valid tsk cb = false
  · simp [hv]
  · have hv1 : is_tcp_seq_valid tsk cb = true := by simpa using hv
    rw [if_neg hv]
    simp only []
    by_cases h1 : cb.ack > (tcp_ack_data tsk cb).1.snd_nxt
    · rw [if_pos h1]
      exact ⟨Or.inl f4, Or.inr ⟨rfl, rfl, rfl⟩, f1⟩
    · rw [if_neg h1]
      by_cases h2 : cb.pl_len > 0
      · rw [if_pos h2]
        obtain ⟨w, ev2, _, hp⟩ := tcp_process_payload_spec (tcp_ack_data tsk cb).1 cb _ rfl
        simp only [hp]
        obtain ⟨p1, p2, p3, p4, p5⟩ := ofo_promote_loop_rcv_nxt
          (ofo_insert { seq := cb.seq, seq_end := cb.seq_end,
                        payload := cb.payload.take cb.pl_len, len := cb.pl_len }
            (tcp_ack_data tsk cb).1.rcv_ofo_buf)
          { (tcp_ack_data tsk cb).1 with
              rcv_ofo_buf := ofo_insert { seq := cb.seq, seq_end := cb.seq_end,
                                          payload := cb.payload.take cb.pl_len, len := cb.pl_len }
                               (tcp_ack_data tsk cb).1.rcv_ofo_buf } false
        refine ⟨?_, Or.inr ⟨p2, p3, p4⟩, ?_⟩
        · rcases p1 with p1 | ⟨x, hx, hxe⟩
          · exact Or.inl (p1.trans f4)
          · refine Or.inr ⟨hv1, ?_⟩
            rcases ofo_insert_mem _ _ x hx with h | h
            · left; rw [h] at hxe; exact hxe
            · right; rw [f6] at h; exact ⟨x, h, hxe⟩
        · exact p5.trans f1
      · rw [if_neg h2]
        exact ⟨Or.inl f4, Or.inr ⟨rfl, rfl, rfl⟩, f1⟩

/-- Case analysis on the dispatcher: a property holds of the result of `tcp_process` as soon
as it holds of the result of each branch under the conditions that lead to it. -/
theorem tcp_process_cases (env : Env) (tsk : tcp_sock) (cb : tcp_cb) (P : Outcome → Prop)
    (c_closed : tsk.state = TCP_CLOSED → P { tsk := tsk })
    (c_listen : tsk.state = TCP_LISTEN → cb.flags &&& TCP_SYN ≠ 0 →
      P { tsk := tsk, child := some (tcp_state_listen env tsk cb).1,
          events := (tcp_state_listen env tsk cb).2 })
    (c_syn_sent : tsk.state = TCP_SYN_SENT → cb.flags &&& (TCP_SYN ||| TCP_ACK) ≠ 0 →
      P { tsk := (tcp_ack_data (tcp_state_syn_sent tsk cb).1 cb).1,
          events := (tcp_state_syn_sent tsk cb).2
                      ++ (tcp_ack_data (tcp_state_syn_sent tsk cb).1 cb).2 })
    (c_syn_recv : tsk.state = TCP_SYN_RECV → cb.flags &&& TCP_ACK ≠ 0 →
      P { tsk := (tcp_ack_data (tcp_state_syn_recv tsk cb).1 cb).1,
          events := (tcp_state_syn_recv tsk cb).2
                      ++ (tcp_ack_data (tcp_state_syn_recv tsk cb).1 cb).2 })
    (c_rst : tsk.state ≠ TCP_CLOSED → cb.flags &&& TCP_RST ≠ 0 →
      P { tsk := tcp_unhash (tcp_set_state tsk TCP_CLOSED) })
    (c_syn : tsk.state ≠ TCP_CLOSED → cb.flags &&& TCP_RST = 0 → cb.flags &&& TCP_SYN ≠ 0 →
      P { tsk := tcp_unhash (tcp_set_state tsk TCP_CLOSED), events := [Event.send_reset cb] })
    (c_no_ack : tsk.state ≠ TCP_CLOSED → cb.flags &&& TCP_ACK = 0 → P { tsk := tsk })
    (c_fin_established : cb.flags &&& TCP_FIN ≠ 0 → tsk.state = TCP_ESTABLISHED →
      cb.seq = tsk.rcv_nxt → cb.flags &&& TCP_RST = 0 → cb.flags &&& TCP_SYN = 0 →
      cb.flags &&& TCP_ACK ≠ 0 →
      P { tsk := tcp_set_state { (tcp_ack_data tsk cb).1 with rcv_nxt := cb.seq_end }
                   TCP_CLOSE_WAIT,
          events := (tcp_ack_data tsk cb).2
            ++ [tcp_send_control_packet { (tcp_ack_data tsk cb).1 with rcv_nxt := cb.seq_end }
                  TCP_ACK,
                Event.wake_up wait_point.wait_recv] })
    (c_fin_wait_1 : tsk.state = TCP_FIN_WAIT_1 → cb.flags &&& TCP_ACK ≠ 0 →
      cb.ack = tsk.snd_nxt → cb.flags &&& TCP_RST = 0 → cb.flags &&& TCP_SYN = 0 →
      P { tsk := tcp_set_state (tcp_ack_data tsk cb).1 TCP_FIN_WAIT_2,
          events := (tcp_ack_data tsk cb).2 })
    (c_fin_wait_2 : tsk.state = TCP_FIN_WAIT_2 → cb.flags &&& TCP_FIN ≠ 0 →
      cb.seq = tsk.rcv_nxt → cb.flags &&& TCP_RST = 0 → cb.flags &&& TCP_SYN = 0 →
      cb.flags &&& TCP_ACK ≠ 0 →
      P { tsk := tcp_set_state
                   (tcp_set_timewait_timer { (tcp_ack_data tsk cb).1 with rcv_nxt := cb.seq_end })
                   TCP_TIME_WAIT,
          events := (tcp_ack_data tsk cb).2
            ++ [tcp_send_control_packet { (tcp_ack_data tsk cb).1 with rcv_nxt := cb.seq_end }
                  TCP_ACK] })
    (c_last_ack : tsk.state = TCP_LAST_ACK → cb.flags &&& TCP_ACK ≠ 0 →
      cb.ack = tsk.snd_nxt → cb.flags &&& TCP_RST = 0 → cb.flags &&& TCP_SYN = 0 →
      P { tsk := tcp_unhash (tcp_set_state (tcp_ack_data tsk cb).1 TCP_CLOSED),
          events := (tcp_ack_data tsk cb).2 })
    (c_data : tsk.state ≠ TCP_CLOSED → tsk.state ≠ TCP_SYN_RECV →
      cb.flags &&& TCP_RST = 0 → cb.flags &&& TCP_SYN = 0 → cb.flags &&& TCP_ACK ≠ 0 →
      ¬ (cb.flags &&& TCP_FIN ≠ 0 ∧ tsk.state = TCP_ESTABLISHED ∧ cb.seq = tsk.rcv_nxt) →
      ¬ (tsk.state = TCP_FIN_WAIT_1 ∧ cb.ack = tsk.snd_nxt) →
      ¬ (tsk.state = TCP_FIN_WAIT_2 ∧ cb.flags &&& TCP_FIN ≠ 0 ∧ cb.seq = tsk.rcv_nxt) →
      ¬ (tsk.state = TCP_LAST_ACK ∧ cb.ack = tsk.snd_nxt) →
      P { tsk := (tcp_process_data tsk cb).1, events := (tcp_process_data tsk cb).2 }) :
    P (tcp_process env tsk cb) := by
  unfold tcp_process
  by_cases h1 : tsk.state = TCP_CLOSED
  · rw [if_pos h1]; exact c_closed h1
  rw [if_neg h1]
  by_cases h2 : tsk.state = TCP_LISTEN ∧ cb.flags &&& TCP_SYN ≠ 0
  · rw [if_pos h2]; exact c_listen h2.1 h2.2
  rw [if_neg h2]
  by_cases h3 : tsk.state = TCP_SYN_SENT ∧ cb.flags &&& (TCP_SYN ||| TCP_ACK) ≠ 0
  · rw [if_pos h3]; exact c_syn_sent h3.1 h3.2
  rw [if_neg h3]
  by_cases h4 : tsk.state = TCP_SYN_RECV ∧ cb.flags &&& TCP_ACK ≠ 0
  · rw [if_pos h4]; exact c_syn_recv h4.1 h4.2
  rw [if_neg h4]
  by_cases h5 : cb.flags &&& TCP_RST ≠ 0
  · rw [if_pos h5]; exact c_rst h1 h5
  rw [if_neg h5]
  have h5' : cb.flags &&& TCP_RST = 0 := not_not.1 h5
  by_cases h6 : cb.flags &&& TCP_SYN ≠ 0
  · rw [if_pos h6]; exact c_syn h1 h5' h6
  rw [if_neg h6]
  have h6' : cb.flags &&& TCP_SYN = 0 := not_not.1 h6
  by_cases h7 : cb.flags &&& TCP_ACK = 0
  · rw [if_pos h7]; exact c_no_ack h1 h7
  rw [if_neg h7]
  by_cases h8 : cb.flags &&& TCP_FIN ≠ 0 ∧ tsk.state = TCP_ESTABLISHED ∧ cb.seq = tsk.rcv_nxt
  · rw [if_pos h8]; exact c_fin_established h8.1 h8.2.1 h8.2.2 h5' h6' h7
  rw [if_neg h8]
  by_cases h9 : tsk.state = TCP_FIN_WAIT_1 ∧ cb.flags &&& TCP_ACK ≠ 0 ∧ cb.ack = tsk.snd_nxt
  · rw [if_pos h9]; exact c_fin_wait_1 h9.1 h9.2.1 h9.2.2 h5' h6'
  rw [if_neg h9]
  by_cases h10 : tsk.state = TCP_FIN_WAIT_2 ∧ cb.flags &&& TCP_FIN ≠ 0 ∧ cb.seq = tsk.rcv_nxt
  · rw [if_pos h10]; exact c_fin_wait_2 h10.1 h10.2.1 h10.2.2 h5' h6' h7
  rw [if_neg h10]
  by_cases h11 : tsk.state = TCP_LAST_ACK ∧ cb.flags &&& TCP_ACK ≠ 0 ∧ cb.ack = tsk.snd_nxt
  · rw [if_pos h11]; exact c_last_ack h11.1 h11.2.1 h11.2.2 h5' h6'
  rw [if_neg h11]
  refine c_data h1 ?_ h5' h6' h7 h8 ?_ h10 ?_
  · intro h; exact h4 ⟨h, h7⟩
  · intro h; exact h9 ⟨h.1, h7, h.2⟩
  · intro h; exact h11 ⟨h.1, h7, h.2⟩

/-- C7: the listener of the scenario receives the SYN advertising `rwnd = 4096`:
`tcp_state_listen` copies `cb->rwnd` into the child, whose `snd_wnd` is 4096, not 4000.  The
SYN_RECV handler does the same to a connection whose `snd_wnd` was 4000. -/
theorem tcp_state_listen_child_window_uncapped :
    (tcp_process scen_env listen_sock syn_seg).child.map (fun c => (c.state, c.rcv_nxt, c.snd_wnd))
      = some (TCP_SYN_RECV, 501, 4096) ∧
    syn_recv_sock.snd_wnd ≤ 4000 ∧
    (tcp_process scen_env syn_recv_sock handshake_ack_seg).tsk.snd_wnd = 4096 := by
  decide

/-- C10, as stated, fails: in SYN_SENT a segment with RST and ACK set whose
acknowledgement is not `snd_nxt` is taken by `tcp_state_syn_sent`, which answers with a reset
and returns: the connection stays in SYN_SENT and in the established table. -/
theorem tcp_process_rst_not_always_closed :
    syn_sent_sock.state ≠ TCP_CLOSED ∧
    rst_ack_seg.flags &&& TCP_RST ≠ 0 ∧
    (tcp_process scen_env syn_sent_sock rst_ack_seg).tsk.state = TCP_SYN_SENT ∧
    (tcp_process scen_env syn_sent_sock rst_ack_seg).tsk.hashed = true ∧
    (tcp_process scen_env syn_sent_sock rst_ack_seg).events = [Event.send_reset rst_ack_seg] := by
  decide

/-- C10, amended: a segment with RST set that no handshake handler takes first (LISTEN
with SYN, SYN_SENT with SYN or ACK, SYN_RECV with ACK) closes every connection that is not
CLOSED and removes it from the established table. -/
theorem tcp_process_rst_closes (env : Env) (tsk : tcp_sock) (cb : tcp_cb)
    (hst : tsk.state ≠ TCP_CLOSED) (hrst : cb.flags &&& TCP_RST ≠ 0)
    (hl : ¬ (tsk.state = TCP_LISTEN ∧ cb.flags &&& TCP_SYN ≠ 0))
    (hs : ¬ (tsk.state = TCP_SYN_SENT ∧ cb.flags &&& (TCP_SYN ||| TCP_ACK) ≠ 0))
    (hr : ¬ (tsk.state = TCP_SYN_RECV ∧ cb.flags &&& TCP_ACK ≠ 0)) :
    (tcp_process env tsk cb).tsk.state = TCP_CLOSED ∧
    (tcp_process env tsk cb).tsk.hashed = false := by
  unfold tcp_process
  simp only [hst, hl, hs, hr, hrst, if_false, if_true, ne_eq, not_false_eq_true]
  exact ⟨rfl, rfl⟩

/-- C10, amended, on an ESTABLISHED connection receiving a bare RST. -/
theorem tcp_process_rst_closes_established :
    (tcp_process scen_env est_sock rst_seg).tsk.state = TCP_CLOSED ∧
    (tcp_process scen_env est_sock rst_seg).tsk.hashed = false :=
  tcp_process_rst_closes scen_env est_sock rst_seg (by decide) (by decide) (by decide)
    (by decide) (by decide)

theorem less_or_equal_32b_of_between (a b c : Nat) (hab : a ≤ b) (hbc : b ≤ c) (hc : c < U32)
    (h : less_or_equal_32b a c = true) : less_or_equal_32b b c = true := by
  rw [less_or_equal_32b_iff] at *
  unfold sub32 at *
  unfold U32 at *
  omega

/-- The send side after `tcp_ack_data`: `snd_nxt` is untouched, `snd_una ≤ snd_nxt` is kept in
wraparound order, and `snd_una` is either untouched or the `seq_end` of a pruned entry lying
between the old `snd_una` and the accepted acknowledgement. -/
theorem tcp_ack_data_send_side (t : tcp_sock) (cb : tcp_cb)
    (hu : t.snd_nxt < U32) (hinv : less_or_equal_32b t.snd_una t.snd_nxt = true) :
    (tcp_ack_data t cb).1.snd_nxt = t.snd_nxt ∧
    less_or_equal_32b (tcp_ack_data t cb).1.snd_una t.snd_nxt = true ∧
    ((tcp_ack_data t cb).1.snd_una = t.snd_una ∨
      ∃ p ∈ t.send_buf, p ∉ (tcp_ack_data t cb).1.send_buf ∧ t.snd_una < p.seq_end ∧
        p.seq_end ≤ cb.ack ∧ cb.ack ≤ t.snd_nxt ∧ (tcp_ack_data t cb).1.snd_una = p.seq_end) := by
  refine ⟨(tcp_ack_data_frame t cb).2.1, ?_⟩
  by_cases h : cb.ack ≤ t.snd_nxt ∧ cb.ack ≥ t.snd_una
  · obtain ⟨e1, e2, _⟩ := tcp_ack_data_in_range t cb h.2 h.1
    obtain ⟨a1, _, a3, _⟩ := tcp_ack_data_loop_una cb.ack t.send_buf t.snd_una false
    rw [e1, e2, tcp_ack_data_loop_buf]
    rcases a3 with a3 | ⟨p, hp, hpa, hpu, hpe⟩
    · rw [a3]; exact ⟨hinv, Or.inl rfl⟩
    · refine ⟨?_, Or.inr ⟨p, hp, ?_, hpu, hpa, h.1, hpe⟩⟩
      · rw [hpe]
        exact less_or_equal_32b_of_between t.snd_una p.seq_end t.snd_nxt (by omega) (by omega)
          hu hinv
      · simp only [List.mem_filter, decide_eq_true_eq, not_and, not_lt]
        intro _; exact hpa
  · rw [tcp_ack_data_out_of_range t cb h]
    exact ⟨hinv, Or.inl rfl⟩

/-- C9: `snd_una ≤ snd_nxt` is preserved.  For a connection with `snd_una ≤ snd_nxt` in
wraparound order (`snd_nxt` a 32-bit value) and any segment, `tcp_process` leaves `snd_nxt`
unchanged and `snd_una ≤ snd_nxt` still holds in wraparound order; and `snd_una` is unchanged,
or was set to `cb.ack = snd_nxt` by the SYN_SENT handler, or is the `seq_end` of a pruned entry
lying between the old `snd_una` and the accepted acknowledgement. -/
theorem tcp_process_snd_una_le_snd_nxt (env : Env) (tsk : tcp_sock) (cb : tcp_cb)
    (hu : tsk.snd_nxt < U32) (hinv : less_or_equal_32b tsk.snd_una tsk.snd_nxt = true) :
    (tcp_process env tsk cb).tsk.snd_nxt = tsk.snd_nxt ∧
    less_or_equal_32b (tcp_process env tsk cb).tsk.snd_una (tcp_process env tsk cb).tsk.snd_nxt
      = true ∧
    ((tcp_process env tsk cb).tsk.snd_una = tsk.snd_una ∨
      (tsk.state = TCP_SYN_SENT ∧ cb.ack = tsk.snd_nxt ∧
        (tcp_process env tsk cb).tsk.snd_una = cb.ack) ∨
      ∃ p ∈ tsk.send_buf, p ∉ (tcp_process env tsk cb).tsk.send_buf ∧ tsk.snd_una < p.seq_end ∧
        p.seq_end ≤ cb.ack ∧ cb.ack ≤ tsk.snd_nxt ∧
        (tcp_process env tsk cb).tsk.snd_una = p.seq_end) := by
  have hA := tcp_ack_data_send_side tsk cb hu hinv
  have base : ∀ t : tcp_sock, t.snd_una = tsk.snd_una → t.snd_nxt = tsk.snd_nxt →
      t.send_buf = tsk.send_buf →
      t.snd_nxt = tsk.snd_nxt ∧ less_or_equal_32b t.snd_una t.snd_nxt = true ∧
      (t.snd_una = tsk.snd_una ∨
        (tsk.state = TCP_SYN_SENT ∧ cb.ack = tsk.snd_nxt ∧ t.snd_una = cb.ack) ∨
        ∃ p ∈ tsk.send_buf, p ∉ t.send_buf ∧ tsk.snd_una < p.seq_end ∧
          p.seq_end ≤ cb.ack ∧ cb.ack ≤ tsk.snd_nxt ∧ t.snd_una = p.seq_end) := by
    intro t h1 h2 _
    exact ⟨h2, by rw [h1, h2]; exact hinv, Or.inl h1⟩
  have acked : ∀ t : tcp_sock, t.snd_una = (tcp_ack_data tsk cb).1.snd_una →
      t.snd_nxt = (tcp_ack_data tsk cb).1.snd_nxt →
      t.send_buf = (tcp_ack_data tsk cb).1.send_buf →
      t.snd_nxt = tsk.snd_nxt ∧ less_or_equal_32b t.snd_una t.snd_nxt = true ∧
      (t.snd_una = tsk.snd_una ∨
        (tsk.state = TCP_SYN_SENT ∧ cb.ack = tsk.snd_nxt ∧ t.snd_una = cb.ack) ∨
        ∃ p ∈ tsk.send_buf, p ∉ t.send_buf ∧ tsk.snd_una < p.seq_end ∧
          p.seq_end ≤ cb.ack ∧ cb.ack ≤ tsk.snd_nxt ∧ t.snd_una = p.seq_end) := by
    intro t h1 h2 h3
    obtain ⟨a1, a2, a3⟩ := hA
    refine ⟨h2.trans a1, by rw [h1, h2, a1]; exact a2, ?_⟩
    rcases a3 with a3 | ⟨p, hp, hq, r1, r2, r3, r4⟩
    · exact Or.inl (h1.trans a3)
    · exact Or.inr (Or.inr ⟨p, hp, by rw [h3]; exact hq, r1, r2, r3, h1.trans r4⟩)
  apply tcp_process_cases env tsk cb (fun o =>
      o.tsk.snd_nxt = tsk.snd_nxt ∧ less_or_equal_32b o.tsk.snd_una o.tsk.snd_nxt = true ∧
      (o.tsk.snd_una = tsk.snd_una ∨
        (tsk.state = TCP_SYN_SENT ∧ cb.ack = tsk.snd_nxt ∧ o.tsk.snd_una = cb.ack) ∨
        ∃ p ∈ tsk.send_buf, p ∉ o.tsk.send_buf ∧ tsk.snd_una < p.seq_end ∧
          p.seq_end ≤ cb.ack ∧ cb.ack ≤ tsk.snd_nxt ∧ o.tsk.snd_una = p.seq_end))
  · intro _; exact base _ rfl rfl rfl
  · intro _ _; exact base _ rfl rfl rfl
  · -- the SYN_SENT handler
    intro h3 _
    dsimp only
    unfold tcp_state_syn_sent
    split_ifs with hc
    · exact acked _ rfl rfl rfl
    · have hack : cb.ack = tsk.snd_nxt := by
        by_contra hne
        exact hc (Or.inr hne)
      simp only [tcp_set_state]
      obtain ⟨b1, b2, b3⟩ := tcp_ack_data_send_side
        { tsk with rcv_nxt := cb.seq_end, snd_wnd := cb.rwnd, snd_una := cb.ack,
                   state := TCP_ESTABLISHED } cb hu
        (by simp only [hack]; exact less_or_equal_32b_refl _)
      simp only at b1 b2 b3
      refine ⟨b1, by rw [b1]; exact b2, ?_⟩
      rcases b3 with b3 | ⟨p, _, _, r1, r2, _, _⟩
      · exact Or.inr (Or.inl ⟨h3, hack, b3⟩)
      · omega
  · -- the SYN_RECV handler
    intro _ _
    dsimp only
    obtain ⟨b1, b2, b3⟩ := tcp_ack_data_send_side (tcp_state_syn_recv tsk cb).1 cb hu hinv
    refine ⟨b1, by rw [b1]; exact b2, ?_⟩
    rcases b3 with b3 | b3
    · exact Or.inl b3
    · exact Or.inr (Or.inr b3)
  · intro _ _; exact base _ rfl rfl rfl
  · intro _ _ _; exact base _ rfl rfl rfl
  · intro _ _; exact base _ rfl rfl rfl
  · intro _ _ _ _ _ _; exact acked _ rfl rfl rfl
  · intro _ _ _ _ _; exact acked _ rfl rfl rfl
  · intro _ _ _ _ _ _; exact acked _ rfl rfl rfl
  · intro _ _ _ _ _; exact acked _ rfl rfl rfl
  · intro _ _ _ _ _ _ _ _ _
    dsimp only
    rcases (tcp_process_data_sides tsk cb).2.1 with ⟨g1, g2, g3⟩ | ⟨g1, g2, g3⟩
    · exact base _ g1 g2 g3
    · exact acked _ g1 g2 g3

/-- C9 on the cumulative-ACK scenario: `snd_una` goes from 1000 to 1250, the `seq_end` of
the second queued segment, and `snd_nxt` stays 1300. -/
theorem tcp_process_snd_una_le_snd_nxt_scenario :
    (tcp_process scen_env ack_sock ack_seg).tsk.snd_una = 1250 ∧
    (tcp_process scen_env ack_sock ack_seg).tsk.snd_nxt = ack_sock.snd_nxt ∧
    less_or_equal_32b (tcp_process scen_env ack_sock ack_seg).tsk.snd_una
      (tcp_process scen_env ack_sock ack_seg).tsk.snd_nxt = true :=
  have h := tcp_process_snd_una_le_snd_nxt scen_env ack_sock ack_seg (by decide) (by decide)
  ⟨by decide, h.1, h.2.1⟩

/-- C11: in SYN_SENT with `snd_nxt = 1001`, a segment with only ACK set (no SYN) and
`ack = 1001` passes the test `!(flags & (SYN|ACK)) || ack != snd_nxt` of `tcp_state_syn_sent`:
no reset is sent and the connection becomes ESTABLISHED.  A segment with neither flag is not
handed to the handler at all and is dropped without a reset. -/
theorem tcp_state_syn_sent_accepts_lone_ack :
    lone_ack_seg.flags &&& TCP_SYN = 0 ∧
    (tcp_process scen_env syn_sent_sock lone_ack_seg).tsk.state = TCP_ESTABLISHED ∧
    (tcp_process scen_env syn_sent_sock lone_ack_seg).events
      = [Event.send_control TCP_ACK 1001 7000 4000, Event.wake_up wait_point.wait_connect] ∧
    (tcp_process scen_env syn_sent_sock lone_fin_seg).events = [] ∧
    (tcp_process scen_env syn_sent_sock lone_fin_seg).tsk = syn_sent_sock := by
  decide

/-- The events of `tcp_ack_data` contain no control packet. -/
theorem tcp_ack_data_no_control (tsk : tcp_sock) (cb : tcp_cb) :
    (tcp_ack_data tsk cb).2.filter Event.is_send_control = [] := by
  rw [List.filter_eq_nil_iff]
  intro e he
  rw [tcp_ack_data_events tsk cb e he]
  simp [Event.is_send_control]

/-- The passive-close branch of the dispatcher. -/
theorem tcp_process_fin_established_eq (env : Env) (tsk : tcp_sock) (cb : tcp_cb)
    (hst : tsk.state = TCP_ESTABLISHED)
    (hfin : cb.flags &&& TCP_FIN ≠ 0) (hack : cb.flags &&& TCP_ACK ≠ 0)
    (hrst : cb.flags &&& TCP_RST = 0) (hsyn : cb.flags &&& TCP_SYN = 0)
    (hseq : cb.seq = tsk.rcv_nxt) :
    tcp_process env tsk cb
      = { tsk := tcp_set_state { (tcp_ack_data tsk cb).1 with rcv_nxt := cb.seq_end }
                   TCP_CLOSE_WAIT,
          events := (tcp_ack_data tsk cb).2
            ++ [tcp_send_control_packet { (tcp_ack_data tsk cb).1 with rcv_nxt := cb.seq_end }
                  TCP_ACK,
                Event.wake_up wait_point.wait_recv] } := by
  unfold tcp_process
  simp [hst, hfin, hack, hrst, hsyn, hseq]

/-- The state after the SYN_SENT handler: unchanged or ESTABLISHED. -/
theorem tcp_state_syn_sent_state (tsk : tcp_sock) (cb : tcp_cb) :
    (tcp_state_syn_sent tsk cb).1.state = tsk.state ∨
    (tcp_state_syn_sent tsk cb).1.state = TCP_ESTABLISHED := by
  unfold tcp_state_syn_sent
  split_ifs
  · exact Or.inl rfl
  · exact Or.inr rfl

/-- C14: `tcp_process` only moves along the state graph.  The state is unchanged, or the
step is SYN_SENT to ESTABLISHED, SYN_RECV to ESTABLISHED, ESTABLISHED to CLOSE_WAIT (on FIN with
`seq = rcv_nxt`), FIN_WAIT_1 to FIN_WAIT_2 (on ACK with `ack = snd_nxt`), FIN_WAIT_2 to
TIME_WAIT (on FIN with `seq = rcv_nxt`; then `rcv_nxt = seq_end` and the TIME_WAIT timer is
armed), LAST_ACK to CLOSED (on ACK with `ack = snd_nxt`; then the connection is unhashed), or
a non-CLOSED state to CLOSED on a segment carrying RST or SYN.  A CLOSED connection is not
changed at all, and a LISTEN connection never becomes SYN_RECV. -/
theorem tcp_process_state_graph (env : Env) (tsk : tcp_sock) (cb : tcp_cb) :
    ((tcp_process env tsk cb).tsk.state = tsk.state ∨
      (tsk.state = TCP_SYN_SENT ∧ (tcp_process env tsk cb).tsk.state = TCP_ESTABLISHED) ∨
      (tsk.state = TCP_SYN_RECV ∧ (tcp_process env tsk cb).tsk.state = TCP_ESTABLISHED) ∨
      (tsk.state = TCP_ESTABLISHED ∧ (tcp_process env tsk cb).tsk.state = TCP_CLOSE_WAIT ∧
        cb.flags &&& TCP_FIN ≠ 0 ∧ cb.seq = tsk.rcv_nxt) ∨
      (tsk.state = TCP_FIN_WAIT_1 ∧ (tcp_process env tsk cb).tsk.state = TCP_FIN_WAIT_2 ∧
        cb.flags &&& TCP_ACK ≠ 0 ∧ cb.ack = tsk.snd_nxt) ∨
      (tsk.state = TCP_FIN_WAIT_2 ∧ (tcp_process env tsk cb).tsk.state = TCP_TIME_WAIT ∧
        cb.flags &&& TCP_FIN ≠ 0 ∧ cb.seq = tsk.rcv_nxt ∧
        (tcp_process env tsk cb).tsk.rcv_nxt = cb.seq_end ∧
        (tcp_process env tsk cb).tsk.timewait_enable = true) ∨
      (tsk.state = TCP_LAST_ACK ∧ (tcp_process env tsk cb).tsk.state = TCP_CLOSED ∧
        cb.flags &&& TCP_ACK ≠ 0 ∧ cb.ack = tsk.snd_nxt ∧
        (tcp_process env tsk cb).tsk.hashed = false) ∨
      (tsk.state ≠ TCP_CLOSED ∧ (tcp_process env tsk cb).tsk.state = TCP_CLOSED ∧
        (cb.flags &&& TCP_RST ≠ 0 ∨ cb.flags &&& TCP_SYN ≠ 0))) ∧
    (tsk.state = TCP_CLOSED →
      (tcp_process env tsk cb).tsk = tsk ∧ (tcp_process env tsk cb).child = none ∧
      (tcp_process env tsk cb).events = []) ∧
    (tsk.state = TCP_LISTEN → (tcp_process env tsk cb).tsk.state ≠ TCP_SYN_RECV) := by
  have hf := fun t => (tcp_ack_data_frame t cb).1
  apply tcp_process_cases env tsk cb (fun o =>
    (o.tsk.state = tsk.state ∨
      (tsk.state = TCP_SYN_SENT ∧ o.tsk.state = TCP_ESTABLISHED) ∨
      (tsk.state = TCP_SYN_RECV ∧ o.tsk.state = TCP_ESTABLISHED) ∨
      (tsk.state = TCP_ESTABLISHED ∧ o.tsk.state = TCP_CLOSE_WAIT ∧
        cb.flags &&& TCP_FIN ≠ 0 ∧ cb.seq = tsk.rcv_nxt) ∨
      (tsk.state = TCP_FIN_WAIT_1 ∧ o.tsk.state = TCP_FIN_WAIT_2 ∧
        cb.flags &&& TCP_ACK ≠ 0 ∧ cb.ack = tsk.snd_nxt) ∨
      (tsk.state = TCP_FIN_WAIT_2 ∧ o.tsk.state = TCP_TIME_WAIT ∧
        cb.flags &&& TCP_FIN ≠ 0 ∧ cb.seq = tsk.rcv_nxt ∧
        o.tsk.rcv_nxt = cb.seq_end ∧ o.tsk.timewait_enable = true) ∨
      (tsk.state = TCP_LAST_ACK ∧ o.tsk.state = TCP_CLOSED ∧
        cb.flags &&& TCP_ACK ≠ 0 ∧ cb.ack = tsk.snd_nxt ∧ o.tsk.hashed = false) ∨
      (tsk.state ≠ TCP_CLOSED ∧ o.tsk.state = TCP_CLOSED ∧
        (cb.flags &&& TCP_RST ≠ 0 ∨ cb.flags &&& TCP_SYN ≠ 0))) ∧
    (tsk.state = TCP_CLOSED → o.tsk = tsk ∧ o.child = none ∧ o.events = []) ∧
    (tsk.state = TCP_LISTEN → o.tsk.state ≠ TCP_SYN_RECV))
  · intro h
    refine ⟨Or.inl rfl, fun _ => ⟨rfl, rfl, rfl⟩, ?_⟩
    intro h'; rw [h] at h'; cases h'
  · intro h _
    refine ⟨Or.inl rfl, ?_, ?_⟩
    · intro h'; rw [h] at h'; cases h'
    · intro _; dsimp only; rw [h]; simp
  · intro h _
    dsimp only
    rw [hf]
    refine ⟨?_, ?_, ?_⟩
    · rcases tcp_state_syn_sent_state tsk cb with e | e
      · exact Or.inl e
      · exact Or.inr (Or.inl ⟨h, e⟩)
    · intro h'; rw [h] at h'; cases h'
    · intro h'; rw [h] at h'; cases h'
  · intro h _
    dsimp only
    rw [hf]
    refine ⟨Or.inr (Or.inr (Or.inl ⟨h, rfl⟩)), ?_, ?_⟩
    · intro h'; rw [h] at h'; cases h'
    · intro h'; rw [h] at h'; cases h'
  · intro h hr
    refine ⟨Or.inr (Or.inr (Or.inr (Or.inr (Or.inr (Or.inr (Or.inr ⟨h, rfl, Or.inl hr⟩)))))),
      fun h' => absurd h' h, ?_⟩
    intro _; simp [tcp_unhash, tcp_set_state]
  · intro h _ hs
    refine ⟨Or.inr (Or.inr (Or.inr (Or.inr (Or.inr (Or.inr (Or.inr ⟨h, rfl, Or.inr hs⟩)))))),
      fun h' => absurd h' h, ?_⟩
    intro _; simp [tcp_unhash, tcp_set_state]
  · intro h _
    refine ⟨Or.inl rfl, fun h' => absurd h' h, ?_⟩
    intro h'; dsimp only; rw [h']; simp
  · intro hfin hst hseq _ _ _
    refine ⟨Or.inr (Or.inr (Or.inr (Or.inl ⟨hst, rfl, hfin, hseq⟩))), ?_, ?_⟩
    · intro h'; rw [hst] at h'; cases h'
    · intro h'; rw [hst] at h'; cases h'
  · intro hst hack hackeq _ _
    refine ⟨Or.inr (Or.inr (Or.inr (Or.inr (Or.inl ⟨hst, rfl, hack, hackeq⟩)))), ?_, ?_⟩
    · intro h'; rw [hst] at h'; cases h'
    · intro h'; rw [hst] at h'; cases h'
  · intro hst hfin hseq _ _ _
    refine ⟨Or.inr (Or.inr (Or.inr (Or.inr (Or.inr (Or.inl
      ⟨hst, rfl, hfin, hseq, rfl, rfl⟩))))), ?_, ?_⟩
    · intro h'; rw [hst] at h'; cases h'
    · intro h'; rw [hst] at h'; cases h'
  · intro hst hack hackeq _ _
    refine ⟨Or.inr (Or.inr (Or.inr (Or.inr (Or.inr (Or.inr (Or.inl
      ⟨hst, rfl, hack, hackeq, rfl⟩)))))), ?_, ?_⟩
    · intro h'; rw [hst] at h'; cases h'
    · intro h'; rw [hst] at h'; cases h'
  · intro hc _ _ _ _ _ _ _ _
    dsimp only
    have hs := (tcp_process_data_sides tsk cb).2.2
    refine ⟨Or.inl hs, fun h' => absurd h' hc, ?_⟩
    intro h'; rw [hs, h']; simp

/-- The loop of `tcp_ack_data` finds nothing to remove in a queue it has already pruned. -/
theorem tcp_ack_data_loop_filtered (ack : Nat) (l : List tcp_packet_cache) (u : Nat) (b : Bool)
    (h : ∀ p ∈ l, ack < p.seq_end) :
    tcp_ack_data_loop ack l u b = (l, u, b) := by
  induction l with
  | nil => rfl
  | cons item rest ih =>
    have h1 : ¬ item.seq_end ≤ ack := by
      have := h item (List.mem_cons_self _ _)
      omega
    unfold tcp_ack_data_loop
    simp only [h1, if_false]
    rw [ih (fun p hp => h p (List.mem_cons_of_mem _ hp))]

/-- C15: pruning is idempotent.  For every connection and every acknowledgement (in or
out of the range `snd_una ≤ A ≤ snd_nxt`), running `tcp_ack_data` a second time with the same
segment leaves the whole socket (queue, `snd_una`, timer enable and timeout) as the first run
left it and produces no event: `wait_send` is not woken again. -/
theorem tcp_ack_data_idempotent (tsk : tcp_sock) (cb : tcp_cb) :
    tcp_ack_data (tcp_ack_data tsk cb).1 cb = ((tcp_ack_data tsk cb).1, []) := by
  by_cases h : cb.ack ≤ tsk.snd_nxt ∧ cb.ack ≥ tsk.snd_una
  · obtain ⟨e1, e2, _⟩ := tcp_ack_data_in_range tsk cb h.2 h.1
    have e3 := (tcp_ack_data_frame tsk cb).2.1
    have hle := tcp_ack_data_una_le_ack tsk cb h.2 h.1
    rw [tcp_ack_data_loop_buf] at e1
    have hfil : ∀ p ∈ (tcp_ack_data tsk cb).1.send_buf, cb.ack < p.seq_end := by
      intro p hp
      rw [e1] at hp
      simpa using (List.mem_filter.1 hp).2
    have hloop := tcp_ack_data_loop_filtered cb.ack (tcp_ack_data tsk cb).1.send_buf
      (tcp_ack_data tsk cb).1.snd_una false hfil
    have hrange : cb.ack ≤ (tcp_ack_data tsk cb).1.snd_nxt ∧ cb.ack ≥ (tcp_ack_data tsk cb).1.snd_una :=
      ⟨by rw [e3]; exact h.1, hle⟩
    have htimer : (tcp_ack_data tsk cb).1.send_buf ≠ [] →
        (tcp_ack_data tsk cb).1.retrans_timer = { timeout := (tcp_ack_data tsk cb).1.RTO, enable := 1 } := by
      unfold tcp_ack_data tcp_unset_retrans_timer
      simp only [h, and_self, if_true]
      split_ifs <;> simp_all
    have htimer0 : (tcp_ack_data tsk cb).1.send_buf = [] →
        (tcp_ack_data tsk cb).1.retrans_timer.enable = 0 := by
      unfold tcp_ack_data tcp_unset_retrans_timer
      simp only [h, and_self, if_true]
      split_ifs <;> simp_all
    generalize tcp_ack_data tsk cb = a at *
    obtain ⟨t, ev⟩ := a
    simp only at hfil hloop hrange htimer htimer0 ⊢
    unfold tcp_ack_data tcp_unset_retrans_timer
    simp only [hrange, and_self, if_true, hloop]
    by_cases hne : t.send_buf = []
    · have h0 := htimer0 hne
      simp only [hne, ne_eq, not_true_eq_false, if_false, Bool.false_eq_true]
      cases t with
      | mk _ _ _ _ _ _ _ _ _ _ _ _ _ tm _ _ _ _ _ =>
        cases tm
        simp_all
    · have h1 := htimer hne
      simp only [hne, ne_eq, not_false_eq_true, if_true, Bool.false_eq_true, if_false]
      cases t
      simp_all
  · rw [tcp_ack_data_out_of_range tsk cb h, tcp_ack_data_out_of_range tsk cb h]

/-- C16: the retransmit timer tracks the queue.  If the timer is armed exactly when
`send_buf` is non-empty before `tcp_ack_data`, the same holds after it; with the
acknowledgement in `snd_una ≤ A ≤ snd_nxt` (the order `tcp_ack_data` tests) the timer is
enabled with `timeout = RTO` when entries remain and cancelled when the queue became empty;
with the acknowledgement outside that range neither the queue nor the timer is touched. -/
theorem tcp_ack_data_timer_tracks_queue (tsk : tcp_sock) (cb : tcp_cb)
    (hinv : retrans_timer_armed tsk ↔ tsk.send_buf ≠ []) :
    (retrans_timer_armed (tcp_ack_data tsk cb).1 ↔ (tcp_ack_data tsk cb).1.send_buf ≠ []) ∧
    (tsk.snd_una ≤ cb.ack ∧ cb.ack ≤ tsk.snd_nxt →
      ((tcp_ack_data tsk cb).1.send_buf ≠ [] →
        (tcp_ack_data tsk cb).1.retrans_timer.enable = 1 ∧
        (tcp_ack_data tsk cb).1.retrans_timer.timeout = tsk.RTO) ∧
      ((tcp_ack_data tsk cb).1.send_buf = [] → ¬ retrans_timer_armed (tcp_ack_data tsk cb).1)) ∧
    (¬ (tsk.snd_una ≤ cb.ack ∧ cb.ack ≤ tsk.snd_nxt) →
      (tcp_ack_data tsk cb).1.send_buf = tsk.send_buf ∧
      (tcp_ack_data tsk cb).1.retrans_timer = tsk.retrans_timer) := by
  by_cases h : cb.ack ≤ tsk.snd_nxt ∧ cb.ack ≥ tsk.snd_una
  · have key : ((tcp_ack_data tsk cb).1.send_buf ≠ [] →
          (tcp_ack_data tsk cb).1.retrans_timer.enable = 1 ∧
          (tcp_ack_data tsk cb).1.retrans_timer.timeout = tsk.RTO) ∧
        ((tcp_ack_data tsk cb).1.send_buf = [] →
          (tcp_ack_data tsk cb).1.retrans_timer.enable = 0) := by
      unfold tcp_ack_data tcp_unset_retrans_timer
      simp only [h, and_self, if_true]
      split_ifs with h1 <;> simp_all
    refine ⟨?_, fun _ => ⟨key.1, fun he => ?_⟩, fun hn => absurd ⟨h.2, h.1⟩ hn⟩
    · unfold retrans_timer_armed
      constructor
      · intro harm hempty
        exact harm (key.2 hempty)
      · intro hne
        rw [(key.1 hne).1]
        decide
    · unfold retrans_timer_armed
      rw [key.2 he]
      decide
  · rw [tcp_ack_data_out_of_range tsk cb h]
    exact ⟨hinv, fun hr => absurd ⟨hr.2, hr.1⟩ h, fun _ => ⟨rfl, rfl⟩⟩

/-- C16 at the cumulative-ACK scenario: one entry remains and the timer is re-armed to
`RTO`. -/
theorem tcp_ack_data_timer_tracks_queue_scenario :
    (retrans_timer_armed (tcp_ack_data ack_sock ack_seg).1
      ↔ (tcp_ack_data ack_sock ack_seg).1.send_buf ≠ []) ∧
    (tcp_ack_data ack_sock ack_seg).1.retrans_timer = { enable := 1, timeout := 200 } :=
  ⟨(tcp_ack_data_timer_tracks_queue ack_sock ack_seg (by decide)).1, by decide⟩

/-- C18: on an ESTABLISHED connection with `snd_wnd = 0` and the segment 400..500 in
flight, a pure ACK (no payload) with a valid sequence number, `ack = 500` (so
`snd_una ≤ ack ≤ snd_nxt`, and it acknowledges new data) and `rwnd = 3000` reaches the generic
path and prunes the queue, but `tcp_update_window_safe` is only called inside the `pl_len > 0`
branch: `snd_wnd` stays 0.  The same holds when nothing new is acknowledged, and the same
connection does update the window when the segment carries payload. -/
theorem tcp_process_pure_ack_keeps_window :
    is_tcp_seq_valid inflight_zero_wnd_sock window_update_seg = true ∧
    inflight_zero_wnd_sock.snd_una ≤ window_update_seg.ack ∧
    window_update_seg.ack ≤ inflight_zero_wnd_sock.snd_nxt ∧
    less_or_equal_32b inflight_zero_wnd_sock.snd_una window_update_seg.ack = true ∧
    less_or_equal_32b window_update_seg.ack inflight_zero_wnd_sock.snd_nxt = true ∧
    (tcp_process scen_env inflight_zero_wnd_sock window_update_seg).tsk.snd_una = 500 ∧
    (tcp_process scen_env inflight_zero_wnd_sock window_update_seg).tsk.send_buf = [] ∧
    (tcp_process scen_env inflight_zero_wnd_sock window_update_seg).tsk.snd_wnd = 0 ∧
    (tcp_process scen_env zero_wnd_sock window_update_seg).tsk.snd_wnd = 0 ∧
    (tcp_process scen_env zero_wnd_sock window_update_seg).events = [] ∧
    (tcp_process scen_env inflight_zero_wnd_sock data_seg).tsk.snd_wnd = 4000 := by
  decide

/-- C19, as stated, fails: with `snd_wnd = 0` before the update and `rwnd = 0` advertised
again, `tcp_update_window` leaves `snd_wnd = 0` and still wakes `wait_send`. -/
theorem tcp_update_window_wakes_on_zero_rwnd :
    zero_wnd_sock.snd_wnd = 0 ∧
    min zero_rwnd_seg.rwnd 4000 = 0 ∧
    (tcp_update_window zero_wnd_sock zero_rwnd_seg).1.snd_wnd = 0 ∧
    (tcp_update_window zero_wnd_sock zero_rwnd_seg).2 = [Event.wake_up wait_point.wait_send] := by
  decide

/-- C19, amended: `tcp_update_window` stores `min(rwnd, 4000)` and wakes `wait_send`
exactly when `snd_wnd`, read as a 16-bit value, was 0 before the update, whatever the new
value is. -/
theorem tcp_update_window_wakes_iff_old_zero (tsk : tcp_sock) (cb : tcp_cb) :
    (tcp_update_window tsk cb).1.snd_wnd = min cb.rwnd 4000 ∧
    (Event.wake_up wait_point.wait_send ∈ (tcp_update_window tsk cb).2
      ↔ tsk.snd_wnd % U16 = 0) ∧
    (∀ e ∈ (tcp_update_window tsk cb).2, e = Event.wake_up wait_point.wait_send) := by
  unfold tcp_update_window
  by_cases h : tsk.snd_wnd % U16 = 0
  · simp [h]
  · simp [h]

theorem written_bytes_append (u v : List rcv_write) :
    written_bytes (u ++ v) = written_bytes u ++ written_bytes v := by
  induction u with
  | nil => rfl
  | cons w ws ih => simp [written_bytes, ih]

/-- The recorded writes are the writes of the promotion loop: the bytes appended to `rcv_buf`
are those of the recorded fragments, the recorded fragments are the prefix of the buffer that
the loop removed, and each was written while `rcv_nxt` equalled its `seq`. -/
theorem ofo_promote_writes_link (l : List tcp_payload_cache) (t : tcp_sock) (b : Bool) :
    (ofo_promote_loop l t b).1.rcv_buf.data
      = t.rcv_buf.data ++ written_bytes (ofo_promote_writes l t) ∧
    l = (ofo_promote_writes l t).map (fun w => w.item) ++ (ofo_promote_loop l t b).1.rcv_ofo_buf ∧
    (∀ w ∈ ofo_promote_writes l t, w.item.seq = w.rcv_nxt ∧ w.item ∈ l) ∧
    ((ofo_promote_loop l t b).2 = (b || !(ofo_promote_writes l t).isEmpty)) := by
  induction l generalizing t b with
  | nil => simp [ofo_promote_loop, ofo_promote_writes, written_bytes]
  | cons item rest ih =>
    unfold ofo_promote_loop ofo_promote_writes
    by_cases h : t.rcv_nxt = item.seq ∧ ring_buffer_free t.rcv_buf > item.len
    · simp only [if_pos h]
      obtain ⟨i1, i2, i3, i4⟩ := ih
        { t with rcv_nxt := item.seq_end,
                 rcv_buf := write_ring_buffer t.rcv_buf item.payload item.len,
                 rcv_wnd := sub16 t.rcv_wnd item.len } true
      refine ⟨?_, ?_, ?_, ?_⟩
      · rw [i1]; simp [write_ring_buffer, written_bytes]
      · simp only [List.map_cons, List.cons_append]
        exact congrArg _ i2
      · intro w hw
        rcases List.mem_cons.1 hw with rfl | hw
        · exact ⟨h.1.symm, List.mem_cons_self _ _⟩
        · exact ⟨(i3 w hw).1, List.mem_cons_of_mem _ (i3 w hw).2⟩
      · rw [i4]; simp
    · simp [if_neg h, written_bytes, ofo_promote_writes]

/-- After each write of the promotion loop `rcv_nxt` is the `seq_end` of the fragment written:
the next write sees it, and it is the value the loop leaves after its last write. -/
theorem ofo_promote_writes_chain (l : List tcp_payload_cache) (t : tcp_sock) (b : Bool) :
    List.Chain' (fun w w' => w'.rcv_nxt = w.item.seq_end) (ofo_promote_writes l t) ∧
    (∀ w, (ofo_promote_writes l t).head? = some w → w.rcv_nxt = t.rcv_nxt) ∧
    (∀ w, (ofo_promote_writes l t).getLast? = some w →
      (ofo_promote_loop l t b).1.rcv_nxt = w.item.seq_end) ∧
    (ofo_promote_writes l t = [] → (ofo_promote_loop l t b).1.rcv_nxt = t.rcv_nxt) := by
  induction l generalizing t b with
  | nil => simp [ofo_promote_loop, ofo_promote_writes]
  | cons item rest ih =>
    unfold ofo_promote_loop ofo_promote_writes
    by_cases h : t.rcv_nxt = item.seq ∧ ring_buffer_free t.rcv_buf > item.len
    · simp only [if_pos h]
      obtain ⟨i1, i2, i3, i4⟩ := ih
        { t with rcv_nxt := item.seq_end,
                 rcv_buf := write_ring_buffer t.rcv_buf item.payload item.len,
                 rcv_wnd := sub16 t.rcv_wnd item.len } true
      refine ⟨?_, ?_, ?_, ?_⟩
      · rw [List.chain'_cons']
        refine ⟨?_, i1⟩
        intro w hw
        exact i2 w hw
      · intro w hw
        simp only [List.head?_cons, Option.some.injEq] at hw
        rw [← hw]
      · intro w hw
        cases hW : ofo_promote_writes rest
            { t with rcv_nxt := item.seq_end,
                     rcv_buf := write_ring_buffer t.rcv_buf item.payload item.len,
                     rcv_wnd := sub16 t.rcv_wnd item.len } with
        | nil =>
          rw [hW] at hw
          simp only [List.getLast?_singleton, Option.some.injEq] at hw
          rw [i4 hW, ← hw]
        | cons w1 ws =>
          rw [hW] at hw
          rw [List.getLast?_cons_cons] at hw
          rw [hW] at i3
          exact i3 w hw
      · intro hnil
        cases hnil
    · simp [if_neg h]

theorem flags_ack_of_syn_or_ack (x : Nat) (h : x &&& (TCP_SYN ||| TCP_ACK) = 0) :
    x &&& TCP_ACK = 0 := by
  have e : TCP_ACK = (TCP_SYN ||| TCP_ACK) &&& TCP_ACK := by decide
  rw [e, ← Nat.and_assoc, h, Nat.zero_and]

/-- One call of `tcp_process` and its recorded writes.  Either the call returns before the
generic path: nothing is written, `rcv_buf` and `rcv_ofo_buf` are untouched, and `rcv_nxt` is
untouched, or set to `seq_end` of a segment with `seq = rcv_nxt`, or set by a handshake
handler.  Or the call runs the generic path, which happens in neither SYN_SENT nor SYN_RECV. -/
theorem tcp_process_step (env : Env) (tsk : tcp_sock) (cb : tcp_cb) :
    (tcp_process_writes tsk cb = [] ∧
      (tcp_process env tsk cb).tsk.rcv_buf = tsk.rcv_buf ∧
      (tcp_process env tsk cb).tsk.rcv_ofo_buf = tsk.rcv_ofo_buf ∧
      ((tcp_process env tsk cb).tsk.rcv_nxt = tsk.rcv_nxt ∨
        (cb.seq = tsk.rcv_nxt ∧ (tcp_process env tsk cb).tsk.rcv_nxt = cb.seq_end) ∨
        tsk.state = TCP_SYN_SENT ∨ tsk.state = TCP_SYN_RECV) ∧
      (tsk.state ≠ TCP_SYN_SENT → tsk.state ≠ TCP_SYN_RECV →
        (tcp_process env tsk cb).tsk.state ≠ TCP_SYN_SENT ∧
        (tcp_process env tsk cb).tsk.state ≠ TCP_SYN_RECV)) ∨
    (tsk.state ≠ TCP_SYN_SENT ∧ tsk.state ≠ TCP_SYN_RECV ∧
      (tcp_process env tsk cb).tsk = (tcp_process_data tsk cb).1 ∧
      tcp_process_writes tsk cb = tcp_process_data_writes tsk cb) := by
  have fr := fun t => tcp_ack_data_frame t cb
  suffices key : ∀ (o : Outcome) (W : List rcv_write),
      o = tcp_process env tsk cb → W = tcp_process_writes tsk cb →
      (W = [] ∧ o.tsk.rcv_buf = tsk.rcv_buf ∧ o.tsk.rcv_ofo_buf = tsk.rcv_ofo_buf ∧
        (o.tsk.rcv_nxt = tsk.rcv_nxt ∨ (cb.seq = tsk.rcv_nxt ∧ o.tsk.rcv_nxt = cb.seq_end) ∨
          tsk.state = TCP_SYN_SENT ∨ tsk.state = TCP_SYN_RECV) ∧
        (tsk.state ≠ TCP_SYN_SENT → tsk.state ≠ TCP_SYN_RECV →
          o.tsk.state ≠ TCP_SYN_SENT ∧ o.tsk.state ≠ TCP_SYN_RECV)) ∨
      (tsk.state ≠ TCP_SYN_SENT ∧ tsk.state ≠ TCP_SYN_RECV ∧
        o.tsk = (tcp_process_data tsk cb).1 ∧ W = tcp_process_data_writes tsk cb) from
    key _ _ rfl rfl
  intro o W ho hW
  unfold tcp_process at ho
  unfold tcp_process_writes at hW
  by_cases h1 : tsk.state = TCP_CLOSED
  · rw [if_pos h1] at ho hW
    subst ho hW
    exact Or.inl ⟨rfl, rfl, rfl, Or.inl rfl, fun a b => ⟨a, b⟩⟩
  rw [if_neg h1] at ho hW
  by_cases h2 : tsk.state = TCP_LISTEN ∧ cb.flags &&& TCP_SYN ≠ 0
  · rw [if_pos h2] at ho hW
    subst ho hW
    exact Or.inl ⟨rfl, rfl, rfl, Or.inl rfl, fun a b => ⟨a, b⟩⟩
  rw [if_neg h2] at ho hW
  by_cases h3 : tsk.state = TCP_SYN_SENT ∧ cb.flags &&& (TCP_SYN ||| TCP_ACK) ≠ 0
  · rw [if_pos h3] at ho hW
    subst ho hW
    obtain ⟨f1, f2, f3, f4, f5, f6, f7, f8, f9⟩ := fr (tcp_state_syn_sent tsk cb).1
    refine Or.inl ⟨rfl, ?_, ?_, Or.inr (Or.inr (Or.inl h3.1)), fun a _ => absurd h3.1 a⟩
    · dsimp only; rw [f7]; unfold tcp_state_syn_sent; split_ifs <;> rfl
    · dsimp only; rw [f6]; unfold tcp_state_syn_sent; split_ifs <;> rfl
  rw [if_neg h3] at ho hW
  by_cases h4 : tsk.state = TCP_SYN_RECV ∧ cb.flags &&& TCP_ACK ≠ 0
  · rw [if_pos h4] at ho hW
    subst ho hW
    obtain ⟨f1, f2, f3, f4, f5, f6, f7, f8, f9⟩ := fr (tcp_state_syn_recv tsk cb).1
    refine Or.inl ⟨rfl, ?_, ?_, Or.inr (Or.inr (Or.inr h4.1)), fun _ a => absurd h4.1 a⟩
    · dsimp only; rw [f7]; rfl
    · dsimp only; rw [f6]; rfl
  rw [if_neg h4] at ho hW
  by_cases h5 : cb.flags &&& TCP_RST ≠ 0
  · rw [if_pos h5] at ho hW
    subst ho hW
    exact Or.inl ⟨rfl, rfl, rfl, Or.inl rfl,
      fun _ _ => ⟨by simp [tcp_unhash, tcp_set_state], by simp [tcp_unhash, tcp_set_state]⟩⟩
  rw [if_neg h5] at ho hW
  by_cases h6 : cb.flags &&& TCP_SYN ≠ 0
  · rw [if_pos h6] at ho hW
    subst ho hW
    exact Or.inl ⟨rfl, rfl, rfl, Or.inl rfl,
      fun _ _ => ⟨by simp [tcp_unhash, tcp_set_state], by simp [tcp_unhash, tcp_set_state]⟩⟩
  rw [if_neg h6] at ho hW
  by_cases h7 : cb.flags &&& TCP_ACK = 0
  · rw [if_pos h7] at ho hW
    subst ho hW
    exact Or.inl ⟨rfl, rfl, rfl, Or.inl rfl, fun a b => ⟨a, b⟩⟩
  rw [if_neg h7] at ho hW
  obtain ⟨f1, f2, f3, f4, f5, f6, f7, f8, f9⟩ := fr tsk
  by_cases h8 : cb.flags &&& TCP_FIN ≠ 0 ∧ tsk.state = TCP_ESTABLISHED ∧ cb.seq = tsk.rcv_nxt
  · rw [if_pos h8] at ho hW
    subst ho hW
    exact Or.inl ⟨rfl, f7, f6, Or.inr (Or.inl ⟨h8.2.2, rfl⟩),
      fun _ _ => ⟨by simp [tcp_set_state], by simp [tcp_set_state]⟩⟩
  rw [if_neg h8] at ho hW
  by_cases h9 : tsk.state = TCP_FIN_WAIT_1 ∧ cb.flags &&& TCP_ACK ≠ 0 ∧ cb.ack = tsk.snd_nxt
  · rw [if_pos h9] at ho hW
    subst ho hW
    exact Or.inl ⟨rfl, f7, f6, Or.inl f4,
      fun _ _ => ⟨by simp [tcp_set_state], by simp [tcp_set_state]⟩⟩
  rw [if_neg h9] at ho hW
  by_cases h10 : tsk.state = TCP_FIN_WAIT_2 ∧ cb.flags &&& TCP_FIN ≠ 0 ∧ cb.seq = tsk.rcv_nxt
  · rw [if_pos h10] at ho hW
    subst ho hW
    exact Or.inl ⟨rfl, f7, f6, Or.inr (Or.inl ⟨h10.2.2, rfl⟩),
      fun _ _ => ⟨by simp [tcp_set_state, tcp_set_timewait_timer],
                  by simp [tcp_set_state, tcp_set_timewait_timer]⟩⟩
  rw [if_neg h10] at ho hW
  by_cases h11 : tsk.state = TCP_LAST_ACK ∧ cb.flags &&& TCP_ACK ≠ 0 ∧ cb.ack = tsk.snd_nxt
  · rw [if_pos h11] at ho hW
    subst ho hW
    exact Or.inl ⟨rfl, f7, f6, Or.inl f4,
      fun _ _ => ⟨by simp [tcp_unhash, tcp_set_state], by simp [tcp_unhash, tcp_set_state]⟩⟩
  rw [if_neg h11] at ho hW
  subst ho hW
  have hsa : cb.flags &&& (TCP_SYN ||| TCP_ACK) ≠ 0 :=
    fun h => h7 (flags_ack_of_syn_or_ack _ h)
  exact Or.inr ⟨fun h => h3 ⟨h, hsa⟩, fun h => h4 ⟨h, h7⟩, rfl, rfl⟩

/-- The generic path and its recorded writes: either nothing is written and the receive side
is untouched, or the payload branch runs the promotion loop on the buffer with the new
fragment inserted. -/
theorem tcp_process_data_step (tsk : tcp_sock) (cb : tcp_cb) :
    (tcp_process_data_writes tsk cb = [] ∧
      (tcp_process_data tsk cb).1.rcv_buf = tsk.rcv_buf ∧
      (tcp_process_data tsk cb).1.rcv_ofo_buf = tsk.rcv_ofo_buf ∧
      (tcp_process_data tsk cb).1.rcv_nxt = tsk.rcv_nxt) ∨
    (0 < cb.pl_len ∧ ∃ t0 : tcp_sock, t0.rcv_nxt = tsk.rcv_nxt ∧ t0.rcv_buf = tsk.rcv_buf ∧
      tcp_process_data_writes tsk cb
        = ofo_promote_writes
            (ofo_insert { seq := cb.seq, seq_end := cb.seq_end,
                          payload := cb.payload.take cb.pl_len, len := cb.pl_len }
              tsk.rcv_ofo_buf) t0 ∧
      (tcp_process_data tsk cb).1.rcv_buf
        = (ofo_promote_loop
            (ofo_insert { seq := cb.seq, seq_end := cb.seq_end,
                          payload := cb.payload.take cb.pl_len, len := cb.pl_len }
              tsk.rcv_ofo_buf) t0 false).1.rcv_buf ∧
      (tcp_process_data tsk cb).1.rcv_ofo_buf
        = (ofo_promote_loop
            (ofo_insert { seq := cb.seq, seq_end := cb.seq_end,
                          payload := cb.payload.take cb.pl_len, len := cb.pl_len }
              tsk.rcv_ofo_buf) t0 false).1.rcv_ofo_buf ∧
      (tcp_process_data tsk cb).1.rcv_nxt
        = (ofo_promote_loop
            (ofo_insert { seq := cb.seq, seq_end := cb.seq_end,
                          payload := cb.payload.take cb.pl_len, len := cb.pl_len }
              tsk.rcv_ofo_buf) t0 false).1.rcv_nxt) := by
  obtain ⟨f1, f2, f3, f4, f5, f6, f7, f8, f9⟩ := tcp_ack_data_frame tsk cb
  unfold tcp_process_data tcp_process_data_writes
  by_cases hv : is_tcp_seq_valid tsk cb = false
  · rw [if_pos hv, if_pos hv]
    exact Or.inl ⟨rfl, rfl, rfl, rfl⟩
  rw [if_neg hv, if_neg hv]
  dsimp only
  by_cases h1 : cb.ack > (tcp_ack_data tsk cb).1.snd_nxt
  · rw [if_pos h1, if_pos h1]
    exact Or.inl ⟨rfl, f7, f6, f4⟩
  rw [if_neg h1, if_neg h1]
  by_cases h2 : cb.pl_len > 0
  · rw [if_pos h2, if_pos h2]
    refine Or.inr ⟨h2, ?_⟩
    obtain ⟨w, ev2, _, hp⟩ := tcp_process_payload_spec (tcp_ack_data tsk cb).1 cb _ rfl
    rw [hp]
    unfold tcp_process_payload_writes
    dsimp only
    rw [f6]
    exact ⟨{ (tcp_ack_data tsk cb).1 with
               rcv_ofo_buf := ofo_insert { seq := cb.seq, seq_end := cb.seq_end,
                                           payload := cb.payload.take cb.pl_len,
                                           len := cb.pl_len } tsk.rcv_ofo_buf },
      f4, f7, rfl, rfl, rfl, rfl⟩
  · rw [if_neg h2, if_neg h2]
    exact Or.inl ⟨rfl, f7, f6, f4⟩

theorem less_or_equal_32b_of_seq_off (a x y : Nat) (h : seq_off a x ≤ seq_off a y)
    (hy : seq_off a y < 2147483648) : less_or_equal_32b x y = true := by
  rw [less_or_equal_32b_iff]
  unfold seq_off sub32 at *
  unfold U32 at *
  omega

theorem less_than_32b_of_seq_off (a x y : Nat) (h : seq_off a x < seq_off a y)
    (hy : seq_off a y < 2147483648) : less_than_32b x y = true := by
  rw [less_than_32b_iff]
  unfold seq_off sub32 at *
  unfold U32 at *
  omega

/-- The writes of the promotion loop in terms of offsets from an anchor: when every entry of
the list lies in the window of the anchor, each write starts at or after `rcv_nxt` on entry,
ends at or before `rcv_nxt` on exit, and ends at or before the start of every later write. -/
theorem ofo_promote_writes_order (a : Nat) (l : List tcp_payload_cache) (t : tcp_sock) (b : Bool)
    (hl : ∀ x ∈ l, frag_in_window a x) :
    List.Pairwise (fun w w' => seq_off a w.item.seq_end ≤ seq_off a w'.item.seq)
      (ofo_promote_writes l t) ∧
    (∀ w ∈ ofo_promote_writes l t,
      seq_off a t.rcv_nxt ≤ seq_off a w.item.seq ∧
      seq_off a w.item.seq_end ≤ seq_off a (ofo_promote_loop l t b).1.rcv_nxt) ∧
    seq_off a t.rcv_nxt ≤ seq_off a (ofo_promote_loop l t b).1.rcv_nxt := by
  induction l generalizing t b with
  | nil => simp [ofo_promote_loop, ofo_promote_writes]
  | cons item rest ih =>
    unfold ofo_promote_loop ofo_promote_writes
    by_cases h : t.rcv_nxt = item.seq ∧ ring_buffer_free t.rcv_buf > item.len
    · simp only [if_pos h]
      obtain ⟨i1, i2, i3⟩ := ih
        { t with rcv_nxt := item.seq_end,
                 rcv_buf := write_ring_buffer t.rcv_buf item.payload item.len,
                 rcv_wnd := sub16 t.rcv_wnd item.len } true
        (fun x hx => hl x (List.mem_cons_of_mem _ hx))
      have hitem := hl item (List.mem_cons_self _ _)
      unfold frag_in_window at hitem
      dsimp only at i2 i3
      refine ⟨?_, ?_, ?_⟩
      · rw [List.pairwise_cons]
        exact ⟨fun w hw => (i2 w hw).1, i1⟩
      · intro w hw
        rcases List.mem_cons.1 hw with rfl | hw
        · dsimp only
          rw [h.1]
          exact ⟨le_refl _, i3⟩
        · rw [h.1]
          exact ⟨by have := (i2 w hw).1; omega, (i2 w hw).2⟩
      · rw [h.1]; omega
    · simp [if_neg h]

/-- One call of `tcp_process`: its recorded writes are the bytes appended to `rcv_buf`; each
fragment was written while `rcv_nxt` equalled its `seq`; and after each write `rcv_nxt` is the
`seq_end` of the fragment written. -/
theorem tcp_process_writes_facts (env : Env) (tsk : tcp_sock) (cb : tcp_cb) :
    (tcp_process env tsk cb).tsk.rcv_buf.data
      = tsk.rcv_buf.data ++ written_bytes (tcp_process_writes tsk cb) ∧
    (∀ w ∈ tcp_process_writes tsk cb, w.item.seq = w.rcv_nxt) ∧
    List.Chain' (fun w w' => w'.rcv_nxt = w.item.seq_end) (tcp_process_writes tsk cb) ∧
    (∀ w, (tcp_process_writes tsk cb).head? = some w → w.rcv_nxt = tsk.rcv_nxt) ∧
    (∀ w, (tcp_process_writes tsk cb).getLast? = some w →
      (tcp_process env tsk cb).tsk.rcv_nxt = w.item.seq_end) := by
  rcases tcp_process_step env tsk cb with ⟨hW, hbuf, _, _, _⟩ | ⟨_, _, ht, hW⟩
  · rw [hW, hbuf]
    simp [written_bytes]
  · rw [hW, ht]
    rcases tcp_process_data_step tsk cb with ⟨hW0, hbuf, _, _⟩ | ⟨_, t0, ht0n, ht0b, hWe, hb, _, hn⟩
    · rw [hW0, hbuf]
      simp [written_bytes]
    · obtain ⟨l1, _, l3, _⟩ := ofo_promote_writes_link
        (ofo_insert { seq := cb.seq, seq_end := cb.seq_end,
                      payload := cb.payload.take cb.pl_len, len := cb.pl_len }
          tsk.rcv_ofo_buf) t0 false
      obtain ⟨c1, c2, c3, _⟩ := ofo_promote_writes_chain
        (ofo_insert { seq := cb.seq, seq_end := cb.seq_end,
                      payload := cb.payload.take cb.pl_len, len := cb.pl_len }
          tsk.rcv_ofo_buf) t0 false
      rw [hWe, hb, hn, l1, ht0b]
      refine ⟨rfl, fun w hw => (l3 w hw).1, c1, ?_, c3⟩
      intro w hw
      rw [c2 w hw, ht0n]

/-- One call of `tcp_process` in terms of offsets from an anchor, for a buffer and a segment
that lie in the window of the anchor. -/
theorem tcp_process_window_facts (env : Env) (tsk : tcp_sock) (cb : tcp_cb) (a : Nat)
    (hinv : ∀ x ∈ tsk.rcv_ofo_buf, frag_in_window a x) (hcb : seg_in_window a cb) :
    (∀ x ∈ (tcp_process env tsk cb).tsk.rcv_ofo_buf, frag_in_window a x) ∧
    (∀ w ∈ tcp_process_writes tsk cb, frag_in_window a w.item) ∧
    List.Pairwise (fun w w' => seq_off a w.item.seq_end ≤ seq_off a w'.item.seq)
      (tcp_process_writes tsk cb) ∧
    (tsk.state = TCP_SYN_SENT ∨ tsk.state = TCP_SYN_RECV → tcp_process_writes tsk cb = []) ∧
    (tsk.state ≠ TCP_SYN_SENT → tsk.state ≠ TCP_SYN_RECV →
      (tcp_process env tsk cb).tsk.state ≠ TCP_SYN_SENT ∧
      (tcp_process env tsk cb).tsk.state ≠ TCP_SYN_RECV ∧
      (∀ w ∈ tcp_process_writes tsk cb,
        seq_off a tsk.rcv_nxt ≤ seq_off a w.item.seq ∧
        seq_off a w.item.seq_end ≤ seq_off a (tcp_process env tsk cb).tsk.rcv_nxt) ∧
      seq_off a tsk.rcv_nxt ≤ seq_off a (tcp_process env tsk cb).tsk.rcv_nxt) := by
  unfold seg_in_window at hcb
  rcases tcp_process_step env tsk cb with ⟨hW, _, hofo, hnxt, hstate⟩ | ⟨hs1, hs2, ht, hW⟩
  · rw [hW, hofo]
    refine ⟨hinv, by simp, List.Pairwise.nil, fun _ => rfl, ?_⟩
    intro h1 h2
    refine ⟨(hstate h1 h2).1, (hstate h1 h2).2, by simp, ?_⟩
    rcases hnxt with e | ⟨e1, e2⟩ | e | e
    · rw [e]
    · rw [e2, ← e1]; exact hcb.1
    · exact absurd e h1
    · exact absurd e h2
  · rw [hW, ht]
    have hst := (tcp_process_data_sides tsk cb).2.2
    rcases tcp_process_data_step tsk cb with ⟨hW0, _, hofo, hnxt⟩ | ⟨hpl, t0, ht0n, _, hWe, _, ho, hn⟩
    · rw [hW0, hofo, hnxt, hst]
      exact ⟨hinv, by simp, List.Pairwise.nil, fun _ => rfl,
        fun h1 h2 => ⟨h1, h2, by simp, le_refl _⟩⟩
    · have hbuf : ∀ x ∈ ofo_insert { seq := cb.seq, seq_end := cb.seq_end,
                                      payload := cb.payload.take cb.pl_len, len := cb.pl_len }
                          tsk.rcv_ofo_buf, frag_in_window a x := by
        intro x hx
        rcases ofo_insert_mem _ _ x hx with e | e
        · rw [e]; exact ⟨hcb.2.2 hpl, hcb.2.1⟩
        · exact hinv x e
      obtain ⟨_, l2, l3, _⟩ := ofo_promote_writes_link
        (ofo_insert { seq := cb.seq, seq_end := cb.seq_end,
                      payload := cb.payload.take cb.pl_len, len := cb.pl_len }
          tsk.rcv_ofo_buf) t0 false
      obtain ⟨p1, p2, p3⟩ := ofo_promote_writes_order a
        (ofo_insert { seq := cb.seq, seq_end := cb.seq_end,
                      payload := cb.payload.take cb.pl_len, len := cb.pl_len }
          tsk.rcv_ofo_buf) t0 false hbuf
      rw [hWe, ho, hn, hst]
      rw [ht0n] at p2 p3
      refine ⟨?_, fun w hw => hbuf _ (l3 w hw).2, p1, ?_, fun h1 h2 => ⟨h1, h2, p2, p3⟩⟩
      · intro x hx
        apply hbuf
        rw [l2]
        exact List.mem_append_right _ hx
      · intro h
        rcases h with h | h
        · exact absurd h hs1
        · exact absurd h hs2

/-- The recorded writes of a run are the bytes appended to `rcv_buf`, and each fragment was
written while `rcv_nxt` equalled its `seq`. -/
theorem tcp_run_writes_link (env : Env) (cbs : List tcp_cb) :
    ∀ tsk : tcp_sock,
      (tcp_run env tsk cbs).rcv_buf.data
        = tsk.rcv_buf.data ++ written_bytes (tcp_run_writes env tsk cbs) ∧
      (∀ w ∈ tcp_run_writes env tsk cbs, w.item.seq = w.rcv_nxt) := by
  induction cbs with
  | nil => intro tsk; simp [tcp_run, tcp_run_writes, written_bytes]
  | cons cb rest ih =>
    intro tsk
    obtain ⟨f1, f2, _, _, _⟩ := tcp_process_writes_facts env tsk cb
    obtain ⟨i1, i2⟩ := ih (tcp_process env tsk cb).tsk
    unfold tcp_run tcp_run_writes
    refine ⟨?_, ?_⟩
    · rw [i1, f1, written_bytes_append, List.append_assoc]
    · intro w hw
      rcases List.mem_append.1 hw with h | h
      · exact f2 w h
      · exact i2 w h

/-- The window of the anchor is kept along a run, and every fragment written lies in it. -/
theorem tcp_run_writes_in_window (env : Env) (a : Nat) (cbs : List tcp_cb) :
    ∀ tsk : tcp_sock, (∀ x ∈ tsk.rcv_ofo_buf, frag_in_window a x) →
      (∀ cb ∈ cbs, seg_in_window a cb) →
      ∀ w ∈ tcp_run_writes env tsk cbs, frag_in_window a w.item := by
  induction cbs with
  | nil => intro tsk _ _ w hw; simp [tcp_run_writes] at hw
  | cons cb rest ih =>
    intro tsk hinv hcbs w hw
    obtain ⟨g1, g2, _, _, _⟩ := tcp_process_window_facts env tsk cb a hinv
      (hcbs cb (List.mem_cons_self _ _))
    unfold tcp_run_writes at hw
    rcases List.mem_append.1 hw with h | h
    · exact g2 w h
    · exact ih _ g1 (fun c hc => hcbs c (List.mem_cons_of_mem _ hc)) w h

/-- The order of the writes of a run that starts outside the handshake states: every write
starts at or after `rcv_nxt` on entry and ends at or before the start of every later write. -/
theorem tcp_run_writes_order_sync (env : Env) (a : Nat) (cbs : List tcp_cb) :
    ∀ tsk : tcp_sock, tsk.state ≠ TCP_SYN_SENT → tsk.state ≠ TCP_SYN_RECV →
      (∀ x ∈ tsk.rcv_ofo_buf, frag_in_window a x) → (∀ cb ∈ cbs, seg_in_window a cb) →
      List.Pairwise (fun w w' => seq_off a w.item.seq_end ≤ seq_off a w'.item.seq)
        (tcp_run_writes env tsk cbs) ∧
      ∀ w ∈ tcp_run_writes env tsk cbs, seq_off a tsk.rcv_nxt ≤ seq_off a w.item.seq := by
  induction cbs with
  | nil => intro tsk _ _ _ _; simp [tcp_run_writes]
  | cons cb rest ih =>
    intro tsk h1 h2 hinv hcbs
    obtain ⟨g1, _, g3, _, g5⟩ := tcp_process_window_facts env tsk cb a hinv
      (hcbs cb (List.mem_cons_self _ _))
    obtain ⟨s1, s2, s3, s4⟩ := g5 h1 h2
    obtain ⟨i1, i2⟩ := ih (tcp_process env tsk cb).tsk s1 s2 g1
      (fun c hc => hcbs c (List.mem_cons_of_mem _ hc))
    unfold tcp_run_writes
    refine ⟨?_, ?_⟩
    · rw [List.pairwise_append]
      refine ⟨g3, i1, ?_⟩
      intro w hw w' hw'
      have := (s3 w hw).2
      have := i2 w' hw'
      omega
    · intro w hw
      rcases List.mem_append.1 hw with h | h
      · exact (s3 w h).1
      · have := i2 w h
        omega

/-- The order of the writes of a run from any state: a connection in SYN_SENT or SYN_RECV
writes nothing until it has left the handshake. -/
theorem tcp_run_writes_order (env : Env) (a : Nat) (cbs : List tcp_cb) :
    ∀ tsk : tcp_sock, (∀ x ∈ tsk.rcv_ofo_buf, frag_in_window a x) →
      (∀ cb ∈ cbs, seg_in_window a cb) →
      List.Pairwise (fun w w' => seq_off a w.item.seq_end ≤ seq_off a w'.item.seq)
        (tcp_run_writes env tsk cbs) := by
  induction cbs with
  | nil => intro tsk _ _; simp [tcp_run_writes]
  | cons cb rest ih =>
    intro tsk hinv hcbs
    by_cases hs : tsk.state = TCP_SYN_SENT ∨ tsk.state = TCP_SYN_RECV
    · obtain ⟨g1, _, _, g4, _⟩ := tcp_process_window_facts env tsk cb a hinv
        (hcbs cb (List.mem_cons_self _ _))
      unfold tcp_run_writes
      rw [g4 hs, List.nil_append]
      exact ih _ g1 (fun c hc => hcbs c (List.mem_cons_of_mem _ hc))
    · exact (tcp_run_writes_order_sync env a (cb :: rest) tsk (fun h => hs (Or.inl h))
        (fun h => hs (Or.inr h)) hinv hcbs).1

/-- C20, as stated, fails: with `head.seq = rcv_nxt = 2000` and exactly `head.len = 100`
free bytes, the test `ring_buffer_free(rcv_buf) > (int)item->len` is false and the promotion
loop delivers nothing.  The same happens in `tcp_process` when the segment 2000..2100 arrives at
a connection whose ring has exactly 100 free bytes: it is held in `rcv_ofo_buf`. -/
theorem ofo_promote_loop_exact_fit_not_delivered :
    head_frag.seq = tight_sock.rcv_nxt ∧
    ring_buffer_free tight_sock.rcv_buf = head_frag.len ∧
    ofo_promote_loop tight_sock.rcv_ofo_buf tight_sock false = (tight_sock, false) ∧
    (tcp_process scen_env { est_sock with rcv_buf := { free := 100 } } data_seg).tsk.rcv_nxt
      = 2000 ∧
    (tcp_process scen_env { est_sock with rcv_buf := { free := 100 } } data_seg).tsk.rcv_buf.data
      = [] ∧
    (tcp_process scen_env { est_sock with rcv_buf := { free := 100 } } data_seg).tsk.rcv_ofo_buf
      = [head_frag] := by
  decide

/-- C20, amended: promotion threshold.  When the head of the buffer has `seq = rcv_nxt`
and the ring has more than `head.len` free bytes, the loop delivers the head: it goes on with
the rest of the buffer from the socket in which the head's bytes are written, `rcv_nxt` is
`head.seq_end` and `rcv_wnd` is reduced by `head.len` (16-bit); so the final `rcv_buf` holds the
old bytes followed by the head's bytes, the final buffer is a suffix of the rest, and
`new_data_recv` is set.  The loop stops at the first entry whose `seq` differs from `rcv_nxt` or
whose `len` is not below the free capacity, leaving that entry and all later ones buffered. -/
theorem ofo_promote_loop_threshold (head : tcp_payload_cache) (rest : List tcp_payload_cache)
    (tsk : tcp_sock) (b : Bool)
    (hseq : head.seq = tsk.rcv_nxt) (hfit : head.len < ring_buffer_free tsk.rcv_buf) :
    ofo_promote_loop (head :: rest) tsk b
      = ofo_promote_loop rest
          { tsk with rcv_nxt := head.seq_end,
                     rcv_buf := write_ring_buffer tsk.rcv_buf head.payload head.len,
                     rcv_wnd := sub16 tsk.rcv_wnd head.len } true ∧
    (∃ tail, (ofo_promote_loop (head :: rest) tsk b).1.rcv_buf.data
      = tsk.rcv_buf.data ++ head.payload.take head.len ++ tail) ∧
    List.IsSuffix (ofo_promote_loop (head :: rest) tsk b).1.rcv_ofo_buf rest ∧
    (ofo_promote_loop (head :: rest) tsk b).2 = true ∧
    ((∀ x rest', rest = x :: rest' →
        ¬ (head.seq_end = x.seq ∧ x.len < ring_buffer_free tsk.rcv_buf - head.len)) →
      ofo_promote_loop (head :: rest) tsk b
        = ({ tsk with rcv_nxt := head.seq_end,
                      rcv_buf := write_ring_buffer tsk.rcv_buf head.payload head.len,
                      rcv_wnd := sub16 tsk.rcv_wnd head.len,
                      rcv_ofo_buf := rest }, true)) ∧
    (∀ (x : tcp_payload_cache) (l : List tcp_payload_cache) (t : tcp_sock) (b' : Bool),
      ¬ (t.rcv_nxt = x.seq ∧ x.len < ring_buffer_free t.rcv_buf) →
      ofo_promote_loop (x :: l) t b' = ({ t with rcv_ofo_buf := x :: l }, b')) := by
  have hc : tsk.rcv_nxt = head.seq ∧ ring_buffer_free tsk.rcv_buf > head.len :=
    ⟨hseq.symm, hfit⟩
  have hstep : ofo_promote_loop (head :: rest) tsk b
      = ofo_promote_loop rest
          { tsk with rcv_nxt := head.seq_end,
                     rcv_buf := write_ring_buffer tsk.rcv_buf head.payload head.len,
                     rcv_wnd := sub16 tsk.rcv_wnd head.len } true := by
    rw [ofo_promote_loop, if_pos hc]
  obtain ⟨l1, l2, _, l4⟩ := ofo_promote_writes_link rest
    { tsk with rcv_nxt := head.seq_end,
               rcv_buf := write_ring_buffer tsk.rcv_buf head.payload head.len,
               rcv_wnd := sub16 tsk.rcv_wnd head.len } true
  refine ⟨hstep, ?_, ?_, ?_, ?_, ?_⟩
  · rw [hstep, l1]
    refine ⟨written_bytes (ofo_promote_writes rest
      { tsk with rcv_nxt := head.seq_end,
                 rcv_buf := write_ring_buffer tsk.rcv_buf head.payload head.len,
                 rcv_wnd := sub16 tsk.rcv_wnd head.len }), ?_⟩
    simp [write_ring_buffer]
  · rw [hstep]
    exact ⟨_, l2.symm⟩
  · rw [hstep, l4]; rfl
  · intro hstop
    rw [hstep]
    cases rest with
    | nil => simp [ofo_promote_loop]
    | cons x rest' =>
      have hx := hstop x rest' rfl
      rw [ofo_promote_loop]
      have hx' : ¬ (head.seq_end = x.seq ∧
          ring_buffer_free (write_ring_buffer tsk.rcv_buf head.payload head.len) > x.len) := by
        simpa [ring_buffer_free, write_ring_buffer] using hx
      simp only [if_neg hx']
  · intro x l t b' hx
    rw [ofo_promote_loop]
    have hx' : ¬ (t.rcv_nxt = x.seq ∧ ring_buffer_free t.rcv_buf > x.len) := hx
    simp only [if_neg hx']

/-- C20, amended, with 101 free bytes for a head of 100 bytes at `rcv_nxt = 2000`: the head
is delivered, `rcv_nxt = 2100`, `rcv_wnd = 3900`, and the buffer is empty. -/
theorem ofo_promote_loop_threshold_scenario :
    ofo_promote_loop [head_frag] roomy_sock false
      = ({ roomy_sock with rcv_nxt := 2100,
                           rcv_buf := { data := List.replicate 100 5, free := 1 },
                           rcv_wnd := 3900, rcv_ofo_buf := [] }, true) ∧
    (ofo_promote_loop [head_frag] roomy_sock false).2 = true :=
  have h := ofo_promote_loop_threshold head_frag [] roomy_sock false (by decide) (by decide)
  ⟨(h.2.2.2.2.1 (fun _ _ hnil => by cases hnil)).trans (by decide), h.2.2.2.1⟩

end TcpIn
